import Mathlib

/-!
Verification of the api-discovery-tool processing core against its
natural-language specification.

The Python modules under `api_discovery_tool/` are shallowly embedded:
Python strings are `String` (operated on through their `List Char` data,
ASCII-faithful), Python's loosely-typed JSON-like values are the inductive
`J`, `Counter` objects are association lists `List (String × Nat)` that
preserve insertion order, and fallible/absent values are `Option`.
Each embedded definition keeps the name of the Python function it models.
-/

/-! ## Python string primitives (ASCII-faithful models of str methods) -/

/-- Model of the effect of `str.lower` on one ASCII character. -/
def lowerChar (c : Char) : Char :=
  if 65 ≤ c.toNat ∧ c.toNat ≤ 90 then Char.ofNat (c.toNat + 32) else c

/-- Model of the effect of `str.upper` on one ASCII character. -/
def upperChar (c : Char) : Char :=
  if 97 ≤ c.toNat ∧ c.toNat ≤ 122 then Char.ofNat (c.toNat - 32) else c

/-- Model of Python `str.lower` (ASCII range). -/
def pyLower (s : String) : String :=
  ⟨s.data.map lowerChar⟩

/-- Model of Python `str.upper` (ASCII range). -/
def pyUpper (s : String) : String :=
  ⟨s.data.map upperChar⟩

/-- The six characters Python `str.strip` removes (`string.whitespace`). -/
def isPySpace (c : Char) : Bool :=
  c = ' ' || c = '\t' || c = '\n' || c = '\r' || c = Char.ofNat 11 || c = Char.ofNat 12

/-- Model of Python `str.strip` with no argument. -/
def pyStrip (s : String) : String :=
  ⟨((s.data.dropWhile isPySpace).reverse.dropWhile isPySpace).reverse⟩

/-- Bool test: `pat` occurs as a contiguous substring of `l`
(model of Python's `pat in s`). -/
def listContainsSub (pat : List Char) : List Char → Bool
  | [] => pat.isEmpty
  | c :: rest => pat.isPrefixOf (c :: rest) || listContainsSub pat rest

/-- Model of Python `pat in s` for strings. -/
def pyContains (s pat : String) : Bool :=
  listContainsSub pat.data s.data

/-- Model of Python `s.startswith(pat)`. -/
def pyStartsWith (s pat : String) : Bool :=
  pat.data.isPrefixOf s.data

/-- Model of Python `s.endswith(pat)`. -/
def pyEndsWith (s pat : String) : Bool :=
  pat.data.isSuffixOf s.data

theorem toNat_ofNat_of_valid {n : Nat} (h : n < 55296) : (Char.ofNat n).toNat = n := by
  simp only [Char.ofNat, Char.ofNatAux, Char.toNat]
  rw [dif_pos (Or.inl h)]
  rfl

theorem lowerChar_not_upper (c : Char) :
    ¬(65 ≤ (lowerChar c).toNat ∧ (lowerChar c).toNat ≤ 90) := by
  unfold lowerChar
  split
  · next h =>
    have h2 : (Char.ofNat (c.toNat + 32)).toNat = c.toNat + 32 :=
      toNat_ofNat_of_valid (by omega)
    omega
  · next h => omega

theorem lowerChar_idem (c : Char) : lowerChar (lowerChar c) = lowerChar c := by
  have h := lowerChar_not_upper c
  show (if 65 ≤ (lowerChar c).toNat ∧ (lowerChar c).toNat ≤ 90 then
    Char.ofNat ((lowerChar c).toNat + 32) else lowerChar c) = lowerChar c
  rw [if_neg h]

theorem lowerChar_of_space {c : Char} (h : isPySpace c = true) : lowerChar c = c := by
  unfold lowerChar
  rw [if_neg]
  intro hc
  simp only [isPySpace, Bool.or_eq_true, decide_eq_true_eq] at h
  rcases h with ((((h | h) | h) | h) | h) | h <;> subst h <;> revert hc <;> decide

theorem dropWhile_idem {α : Type} (p : α → Bool) (l : List α) :
    List.dropWhile p (List.dropWhile p l) = List.dropWhile p l := by
  induction l with
  | nil => rfl
  | cons c rest ih =>
    by_cases h : p c = true <;> simp [List.dropWhile_cons, h, ih]

/-! ## deduplicator.py -/

/-- `normalize_url`'s scheme stripping: Python
`re.sub(r"^https?:\x2f\x2f|^wss?:\x2f\x2f", "", s)` removes at most one
anchored scheme at the start of the string. -/
def stripScheme (l : List Char) : List Char :=
  if "https://".data.isPrefixOf l then l.drop 8
  else if "http://".data.isPrefixOf l then l.drop 7
  else if "wss://".data.isPrefixOf l then l.drop 6
  else if "ws://".data.isPrefixOf l then l.drop 5
  else l

/-- `normalize_url`'s `re.sub(r"^www\.", "", s)`: removes one leading `www.`. -/
def stripWww (l : List Char) : List Char :=
  if "www.".data.isPrefixOf l then l.drop 4 else l

/-- `normalize_url`'s `s.rstrip('/')`: removes every trailing slash. -/
def rstripSlashes (l : List Char) : List Char :=
  (l.reverse.dropWhile (fun c => c = '/')).reverse

/-- `deduplicator.normalize_url`.  `none` models a missing or non-string
input (the `isinstance` guard); `some ""` models the empty string (falsy). -/
def normalize_url : Option String → String
  | none => ""
  | some s =>
    if s = "" then ""
    else ⟨rstripSlashes (stripWww (stripScheme (s.data.map lowerChar)))⟩

/-- An endpoint dictionary as the deduplicator reads it: a `url` entry, a
`method` entry (each `none` when missing or not a string), and `extra`, an
opaque tag standing for any remaining dictionary content so that two
records with equal url/method can still be distinct objects. -/
structure EndpointRec where
  url : Option String := none
  method : Option String := none
  extra : Nat := 0
deriving DecidableEq

/-- A signature as produced by `get_endpoint_signature`: either the
`(normalized_url, METHOD)` tuple or the bare normalized url string. -/
inductive EndpointSig where
  | urlOnly (u : String)
  | urlMethod (u : String) (m : String)
deriving DecidableEq

/-- `deduplicator.get_endpoint_signature`. -/
def get_endpoint_signature (e : EndpointRec) : Option EndpointSig :=
  match e.url with
  | none => none
  | some u =>
    if u = "" then none
    else
      let normalized := normalize_url (some u)
      if normalized = "" then none
      else
        match e.method with
        | some m => if m = "" then some (.urlOnly normalized)
                    else some (.urlMethod normalized (pyUpper m))
        | none => some (.urlOnly normalized)

/-- One element of the input list of `deduplicate_endpoints`: either an
endpoint dictionary or a non-dict value (dropped by the `isinstance` check). -/
inductive PyEntry where
  | dict (e : EndpointRec)
  | nonDict
deriving DecidableEq

/-- Signature of a list entry; `none` for non-dicts and invalid records. -/
def sigOfEntry : PyEntry → Option EndpointSig
  | .dict e => get_endpoint_signature e
  | .nonDict => none

/-- The loop of `deduplicate_endpoints`: `seen` is the `seen_signatures` set. -/
def dedupGo (seen : List EndpointSig) : List PyEntry → List PyEntry
  | [] => []
  | .nonDict :: rest => dedupGo seen rest
  | .dict e :: rest =>
    match get_endpoint_signature e with
    | none => dedupGo seen rest
    | some s =>
      if s ∈ seen then dedupGo seen rest
      else .dict e :: dedupGo (s :: seen) rest

/-- `deduplicator.deduplicate_endpoints`. -/
def deduplicate_endpoints (endpoints : List PyEntry) : List PyEntry :=
  if endpoints = [] then [] else dedupGo [] endpoints

/-- Spec-side reference definition (from the spec's words: "iterate in input
order, keep the first record for each distinct non-null signature, drop the
rest and drop any non-record inputs"), used to state the refinement. -/
def removeSig (s : EndpointSig) (l : List PyEntry) : List PyEntry :=
  l.filter (fun e => sigOfEntry e ≠ some s)

def dedupFirstSpec : List PyEntry → List PyEntry
  | [] => []
  | e :: rest =>
    match sigOfEntry e with
    | none => dedupFirstSpec rest
    | some s => e :: dedupFirstSpec (removeSig s rest)
termination_by l => l.length
decreasing_by
  · simp
  · simp only [removeSig, List.length_cons]
    exact Nat.lt_succ_of_le (List.length_filter_le _ _)

/-- Entries surviving the seen-set `seen`, used to relate the loop to the
spec-side definition. -/
def removeSigs (seen : List EndpointSig) (l : List PyEntry) : List PyEntry :=
  l.filter (fun e => match sigOfEntry e with
    | some s => decide (s ∉ seen)
    | none => true)

theorem removeSigs_nil (l : List PyEntry) : removeSigs [] l = l := by
  apply List.filter_eq_self.mpr
  intro a _
  cases h : sigOfEntry a <;> simp [h]

theorem removeSig_removeSigs (s : EndpointSig) (seen : List EndpointSig)
    (l : List PyEntry) : removeSig s (removeSigs seen l) = removeSigs (s :: seen) l := by
  simp only [removeSig, removeSigs, List.filter_filter]
  apply List.filter_congr
  intro a _
  cases h : sigOfEntry a with
  | none => simp [h]
  | some t =>
    by_cases h1 : t = s <;> by_cases h2 : t ∈ seen <;>
      simp [h, h1, h2, List.mem_cons]


theorem length_removeSig_le (s : EndpointSig) (l : List PyEntry) :
    (removeSig s l).length ≤ l.length := by
  simp only [removeSig]
  exact List.length_filter_le _ _

theorem dedupGo_eq_spec (l : List PyEntry) :
    ∀ seen, dedupGo seen l = dedupFirstSpec (removeSigs seen l) := by
  induction l with
  | nil => intro seen; simp [dedupGo, removeSigs, dedupFirstSpec]
  | cons e rest ih =>
    intro seen
    cases e with
    | nonDict =>
      have hkeep : removeSigs seen (PyEntry.nonDict :: rest) =
          PyEntry.nonDict :: removeSigs seen rest := by
        simp [removeSigs, List.filter_cons, sigOfEntry]
      rw [hkeep]
      simp only [dedupGo, dedupFirstSpec, sigOfEntry]
      exact ih seen
    | dict e0 =>
      cases hs : get_endpoint_signature e0 with
      | none =>
        have hsig : sigOfEntry (PyEntry.dict e0) = none := hs
        have hkeep : removeSigs seen (PyEntry.dict e0 :: rest) =
            PyEntry.dict e0 :: removeSigs seen rest := by
          simp [removeSigs, List.filter_cons, hsig]
        rw [hkeep]
        simp only [dedupGo, dedupFirstSpec, hs, hsig]
        exact ih seen
      | some s =>
        have hsig : sigOfEntry (PyEntry.dict e0) = some s := hs
        by_cases hmem : s ∈ seen
        · have hdrop : removeSigs seen (PyEntry.dict e0 :: rest) =
              removeSigs seen rest := by
            simp [removeSigs, List.filter_cons, hsig, hmem]
          rw [hdrop]
          simp only [dedupGo, hs]
          rw [if_pos hmem]
          exact ih seen
        · have hkeep : removeSigs seen (PyEntry.dict e0 :: rest) =
              PyEntry.dict e0 :: removeSigs seen rest := by
            simp [removeSigs, List.filter_cons, hsig, hmem]
          rw [hkeep]
          simp only [dedupGo, dedupFirstSpec, hs, hsig]
          rw [if_neg hmem, removeSig_removeSigs]
          exact congrArg _ (ih (s :: seen))

theorem dedupFirstSpec_sublist_aux :
    ∀ n (l : List PyEntry), l.length ≤ n → (dedupFirstSpec l).Sublist l := by
  intro n
  induction n with
  | zero =>
    intro l h
    cases l with
    | nil => simp [dedupFirstSpec]
    | cons e rest => simp at h
  | succ n ih =>
    intro l h
    cases l with
    | nil => simp [dedupFirstSpec]
    | cons e rest =>
      have hlen : rest.length ≤ n := by simp at h; omega
      cases hs : sigOfEntry e with
      | none =>
        simp only [dedupFirstSpec, hs]
        exact List.Sublist.cons e (ih rest hlen)
      | some s =>
        simp only [dedupFirstSpec, hs]
        apply List.Sublist.cons₂ e
        have h2 : (removeSig s rest).Sublist rest := by
          simp only [removeSig]
          exact List.filter_sublist rest
        have h3 : (removeSig s rest).length ≤ n :=
          Nat.le_trans (length_removeSig_le s rest) hlen
        exact (ih (removeSig s rest) h3).trans h2

theorem dedupFirstSpec_sublist (l : List PyEntry) : (dedupFirstSpec l).Sublist l :=
  dedupFirstSpec_sublist_aux l.length l (Nat.le_refl _)

theorem dedupFirstSpec_idem_aux :
    ∀ n (l : List PyEntry), l.length ≤ n →
      dedupFirstSpec (dedupFirstSpec l) = dedupFirstSpec l := by
  intro n
  induction n with
  | zero =>
    intro l h
    cases l with
    | nil => simp [dedupFirstSpec]
    | cons e rest => simp at h
  | succ n ih =>
    intro l h
    cases l with
    | nil => simp [dedupFirstSpec]
    | cons e rest =>
      have hlen : rest.length ≤ n := by simp at h; omega
      cases hs : sigOfEntry e with
      | none =>
        simp only [dedupFirstSpec, hs]
        exact ih rest hlen
      | some s =>
        have hlen2 : (removeSig s rest).length ≤ n :=
          Nat.le_trans (length_removeSig_le s rest) hlen
        have hD : removeSig s (dedupFirstSpec (removeSig s rest)) =
            dedupFirstSpec (removeSig s rest) := by
          simp only [removeSig]
          apply List.filter_eq_self.mpr
          intro a ha
          have hmem : a ∈ removeSig s rest :=
            (dedupFirstSpec_sublist (removeSig s rest)).subset ha
          simp only [removeSig] at hmem
          have h2 := List.of_mem_filter hmem
          simpa using h2
        simp only [dedupFirstSpec, hs]
        rw [hD, ih (removeSig s rest) hlen2]

theorem dedupFirstSpec_sigs_aux :
    ∀ n (l : List PyEntry), l.length ≤ n →
      (dedupFirstSpec l).all (fun e => (sigOfEntry e).isSome) = true := by
  intro n
  induction n with
  | zero =>
    intro l h
    cases l with
    | nil => simp [dedupFirstSpec]
    | cons e rest => simp at h
  | succ n ih =>
    intro l h
    cases l with
    | nil => simp [dedupFirstSpec]
    | cons e rest =>
      have hlen : rest.length ≤ n := by simp at h; omega
      cases hs : sigOfEntry e with
      | none =>
        simp only [dedupFirstSpec, hs]
        exact ih rest hlen
      | some s =>
        have hlen2 : (removeSig s rest).length ≤ n :=
          Nat.le_trans (length_removeSig_le s rest) hlen
        simp only [dedupFirstSpec, hs, List.all_cons, Option.isSome_some,
          Bool.true_and]
        exact ih (removeSig s rest) hlen2

theorem mem_of_mem_dropWhile {α : Type} (p : α → Bool) (x : α) :
    ∀ (l : List α), x ∈ List.dropWhile p l → x ∈ l := by
  intro l
  induction l with
  | nil => intro h; simp at h
  | cons c rest ih =>
    intro h
    by_cases hc : p c = true
    · simp only [List.dropWhile_cons, hc, if_true] at h
      exact List.mem_cons_of_mem c (ih h)
    · simp only [List.dropWhile_cons, hc, if_false] at h
      exact h

theorem stripScheme_subset (l : List Char) : ∀ c ∈ stripScheme l, c ∈ l := by
  intro c hc
  simp only [stripScheme] at hc
  split at hc
  · exact (List.drop_sublist _ _).subset hc
  · split at hc
    · exact (List.drop_sublist _ _).subset hc
    · split at hc
      · exact (List.drop_sublist _ _).subset hc
      · split at hc
        · exact (List.drop_sublist _ _).subset hc
        · exact hc

theorem stripWww_subset (l : List Char) : ∀ c ∈ stripWww l, c ∈ l := by
  intro c hc
  simp only [stripWww] at hc
  split at hc
  · exact (List.drop_sublist _ _).subset hc
  · exact hc

theorem rstripSlashes_subset (l : List Char) : ∀ c ∈ rstripSlashes l, c ∈ l := by
  intro c hc
  simp only [rstripSlashes, List.mem_reverse] at hc
  have h1 := mem_of_mem_dropWhile _ c _ hc
  exact List.mem_reverse.mp h1

theorem rstripSlashes_idem (l : List Char) :
    rstripSlashes (rstripSlashes l) = rstripSlashes l := by
  simp only [rstripSlashes, List.reverse_reverse, dropWhile_idem]

/-- All characters of a normalized url are fixed by lowering. -/
theorem normalize_url_lowered (u : String) :
    ∀ c ∈ (normalize_url (some u)).data, lowerChar c = c := by
  intro c hc
  by_cases hu : u = ""
  · subst hu; simp [normalize_url] at hc
  · have hdef : normalize_url (some u) =
        ⟨rstripSlashes (stripWww (stripScheme (u.data.map lowerChar)))⟩ := by
      simp [normalize_url, hu]
    rw [hdef] at hc
    have h1 : c ∈ stripWww (stripScheme (u.data.map lowerChar)) :=
      rstripSlashes_subset _ c hc
    have h2 : c ∈ stripScheme (u.data.map lowerChar) := stripWww_subset _ c h1
    have h3 : c ∈ u.data.map lowerChar := stripScheme_subset _ c h2
    obtain ⟨a, _, ha⟩ := List.mem_map.mp h3
    rw [← ha]
    exact lowerChar_idem a

/-- A normalized-url string still beginning with a scheme or `www.`, the
shapes on which a second normalization pass strips again. -/
def hasSchemeOrWww (s : String) : Bool :=
  "https://".data.isPrefixOf s.data || "http://".data.isPrefixOf s.data ||
  "wss://".data.isPrefixOf s.data || "ws://".data.isPrefixOf s.data ||
  "www.".data.isPrefixOf s.data

theorem normalize_url_fixed (v : String)
    (hlow : ∀ c ∈ v.data, lowerChar c = c)
    (hsch : hasSchemeOrWww v = false)
    (hsl : rstripSlashes v.data = v.data) :
    normalize_url (some v) = v := by
  by_cases hv : v = ""
  · subst hv; rfl
  · have h1 : v.data.map lowerChar = v.data := by
      calc v.data.map lowerChar = v.data.map id :=
            List.map_congr_left (fun a ha => hlow a ha)
        _ = v.data := List.map_id v.data
    simp only [hasSchemeOrWww, Bool.or_eq_false_iff] at hsch
    obtain ⟨⟨⟨⟨hA, hB⟩, hC⟩, hD⟩, hE⟩ := hsch
    have h2 : stripScheme v.data = v.data := by
      simp [stripScheme, hA, hB, hC, hD]
    have h3 : stripWww v.data = v.data := by
      simp [stripWww, hE]
    show (if v = "" then ""
      else ⟨rstripSlashes (stripWww (stripScheme (v.data.map lowerChar)))⟩) = v
    rw [if_neg hv, h1, h2, h3, hsl]

/-- C4 (counterexample): `normalize_url` is not idempotent on every string;
a second `www.` is only stripped by a second pass. -/
theorem normalize_url_not_idempotent :
    normalize_url (some (normalize_url (some "www.www.a"))) ≠
      normalize_url (some "www.www.a") := by decide

/-- C4 (amended): the concrete normalization examples hold, non-string and
empty input give `""`, and normalization is idempotent on every input whose
normal form does not itself start with a scheme or `www.` prefix (the shapes
the counterexample exploits). -/
theorem normalize_url_spec :
    normalize_url (some "HTTPS://WWW.Example.com/A/") = "example.com/a" ∧
    normalize_url (some "http://example.com/a") = "example.com/a" ∧
    normalize_url none = "" ∧
    normalize_url (some "") = "" ∧
    ∀ u : String, hasSchemeOrWww (normalize_url (some u)) = false →
      normalize_url (some (normalize_url (some u))) = normalize_url (some u) := by
  refine ⟨by decide, by decide, rfl, rfl, ?_⟩
  intro u h
  by_cases hu : u = ""
  · subst hu; rfl
  · apply normalize_url_fixed
    · exact normalize_url_lowered u
    · exact h
    · have hdef : normalize_url (some u) =
          ⟨rstripSlashes (stripWww (stripScheme (u.data.map lowerChar)))⟩ := by
        simp [normalize_url, hu]
      rw [hdef]
      exact rstripSlashes_idem _

/-- C4 witness: the idempotence branch of `normalize_url_spec` at a
concrete input. -/
theorem normalize_url_spec_witness :
    normalize_url (some (normalize_url (some "http://example.com/a"))) =
      normalize_url (some "http://example.com/a") :=
  normalize_url_spec.2.2.2.2 "http://example.com/a" (by decide)

theorem deduplicate_eq_spec (l : List PyEntry) :
    deduplicate_endpoints l = dedupFirstSpec l := by
  by_cases hl : l = []
  · subst hl; simp [deduplicate_endpoints, dedupFirstSpec]
  · simp only [deduplicate_endpoints, if_neg hl]
    rw [dedupGo_eq_spec l [], removeSigs_nil]

/-- C9: `deduplicate_endpoints` equals the spec-side first-occurrence
filter, is idempotent, never lengthens its input, returns a sublist of its
input (first-seen order preserved, nothing reordered), and keeps only
dictionary records with a non-null signature. -/
theorem deduplicate_endpoints_props (l : List PyEntry) :
    deduplicate_endpoints l = dedupFirstSpec l ∧
    deduplicate_endpoints (deduplicate_endpoints l) = deduplicate_endpoints l ∧
    (deduplicate_endpoints l).Sublist l ∧
    (deduplicate_endpoints l).length ≤ l.length ∧
    (deduplicate_endpoints l).all (fun e => (sigOfEntry e).isSome) = true := by
  have h0 := deduplicate_eq_spec
  refine ⟨h0 l, ?_, ?_, ?_, ?_⟩
  · rw [h0 (deduplicate_endpoints l), h0 l]
    exact dedupFirstSpec_idem_aux l.length l (Nat.le_refl _)
  · rw [h0 l]; exact dedupFirstSpec_sublist l
  · rw [h0 l]; exact (dedupFirstSpec_sublist l).length_le
  · rw [h0 l]; exact dedupFirstSpec_sigs_aux l.length l (Nat.le_refl _)

/-! ## A JSON-like value type for Python's loosely-typed dict/list data -/

/-- Python values as the processing pipeline manipulates them: `obj` models
a dict as an insertion-ordered association list (Python dict keys are
unique), `arr` a list, and the leaves model str/int/bool/None. -/
inductive J where
  | null
  | b (v : Bool)
  | i (n : Int)
  | s (v : String)
  | arr (l : List J)
  | obj (o : List (String × J))

/-- Python truthiness of a `J` value. -/
def jTruthy : J → Bool
  | .null => false
  | .b v => v
  | .i n => n != 0
  | .s v => v != ""
  | .arr l => !l.isEmpty
  | .obj o => !o.isEmpty

/-- Python `d.get(k)`: `none` when `d` is not a dict or lacks the key. -/
def jGet (v : J) (k : String) : Option J :=
  match v with
  | .obj o => List.lookup k o
  | _ => none

/-- Python `d.get(k, default)`. -/
def jGetD (v : J) (k : String) (d : J) : J :=
  (jGet v k).getD d

/-- Truthiness of `d.get(k)` (`None` when missing, hence falsy). -/
def jGetTruthy (v : J) (k : String) : Bool :=
  match jGet v k with
  | some w => jTruthy w
  | none => false

def isJObj : J → Bool
  | .obj _ => true
  | _ => false

/-- Entries of a dict value (empty for non-dicts). -/
def jEntries : J → List (String × J)
  | .obj o => o
  | _ => []

/-- Values of a dict value, in insertion order (Python `d.values()`). -/
def jValues (v : J) : List J :=
  (jEntries v).map Prod.snd

/-- Keys of a dict value, in insertion order (Python `d.keys()`). -/
def jKeys (v : J) : List String :=
  (jEntries v).map Prod.fst

/-! ## categorizer.py -/

def API_TYPE_REST : String := "REST"
def API_TYPE_GRAPHQL : String := "GraphQL"
def API_TYPE_SOAP : String := "SOAP"
def API_TYPE_WEBSOCKET : String := "WebSocket"
def API_TYPE_UNKNOWN : String := "Unknown"

def NON_API_CONTENT_TYPES : List String :=
  ["text/html", "image/jpeg", "image/png", "image/gif", "text/css",
   "application/javascript", "application/pdf"]

def DEFINITELY_REST_CONTENT_TYPES : List String :=
  ["application/json", "application/xml", "text/xml",
   "application/octet-stream", "text/plain", "application/x-www-form-urlencoded"]

/-- The alternatives of `categorizer._check_rest`'s static-file regex
`\.(html|htm|...)$`: anchored at the end, it matches exactly when the path
ends in a dot followed by one of these extensions. -/
def STATIC_FILE_EXTENSIONS : List String :=
  ["html", "htm", "css", "js", "png", "jpg", "jpeg", "gif", "pdf", "txt",
   "ico", "svg", "woff", "woff2", "ttf", "eot"]

/-- An endpoint record as `categorizer.py` reads it.  `url` is `none` when
missing or not a string; `method`/bodies default to `""` when missing
(`.get(k, "")`); `response_headers` is the dict's items in order, `[]` when
missing or not a dict; `openapi_spec` is `none` when missing. -/
structure EndpointData where
  url : Option String := none
  method : String := ""
  response_headers : List (String × String) := []
  request_body : String := ""
  response_body : String := ""
  openapi_spec : Option J := none

/-- `categorizer._get_content_type`: first header whose lowercased name is
`content-type`, value lowercased; `""` when absent. -/
def get_content_type (e : EndpointData) : String :=
  match e.response_headers.find? (fun kv => pyLower kv.1 == "content-type") with
  | some kv => pyLower kv.2
  | none => ""

/-- `categorizer._check_websocket`. -/
def check_websocket (e : EndpointData) : Bool :=
  match e.url with
  | none => false
  | some u =>
    if u = "" then false
    else pyStartsWith (pyLower u) "ws://" || pyStartsWith (pyLower u) "wss://"

/-- `categorizer._check_graphql`. -/
def check_graphql (e : EndpointData) : Bool :=
  let url := match e.url with
    | some u => pyLower u
    | none => ""
  let method := pyUpper e.method
  let content_type := get_content_type e
  let request_body := e.request_body
  let response_body := e.response_body
  if pyEndsWith url "/graphql" then true
  else if pyContains content_type "application/graphql" then true
  else if method = "POST" &&
      (pyContains request_body "query" || pyContains request_body "mutation") then true
  else if method = "POST" &&
      ((pyContains response_body "\"data\":" && pyContains response_body "\"errors\":") ||
       (pyContains response_body "\"data\":" && !pyContains response_body "\"errors\":" &&
        pyStartsWith (pyStrip response_body) "\x7b")) then true
  else false

/-- `categorizer._check_soap`. -/
def check_soap (e : EndpointData) : Bool :=
  let url := match e.url with
    | some u => pyLower u
    | none => ""
  let content_type := get_content_type e
  let response_body := pyLower e.response_body
  if pyContains url "?wsdl" then true
  else
    let is_soap_content_type := pyContains content_type "application/soap+xml"
    let is_text_xml_content_type := pyContains content_type "text/xml"
    let has_soap_envelope := pyContains response_body "<soap:envelope" ||
      pyContains response_body "<soapenv:envelope" ||
      pyContains response_body "<s:envelope"
    if is_soap_content_type then true
    else if is_text_xml_content_type && has_soap_envelope then true
    else if content_type = "" && has_soap_envelope then true
    else false

/-- `categorizer._check_rest`. -/
def check_rest (e : EndpointData) : Bool :=
  let method := pyUpper e.method
  let content_type := get_content_type e
  let url := match e.url with
    | some u => u
    | none => ""
  if (match e.openapi_spec with
      | some sp => jTruthy sp && isJObj sp && jGetTruthy sp "openapi"
      | none => false) then true
  else if NON_API_CONTENT_TYPES.any (fun ct => pyContains content_type ct) then false
  else if DEFINITELY_REST_CONTENT_TYPES.any (fun ct => pyContains content_type ct) then true
  else if method ∈ ["GET", "POST", "PUT", "DELETE", "PATCH", "OPTIONS", "HEAD"] then
    if url ≠ "" then
      let path_lower := ⟨(pyLower url).data.takeWhile (fun c => c ≠ '?')⟩
      if content_type = "" || pyStartsWith content_type "application/" then
        !(STATIC_FILE_EXTENSIONS.any (fun ext => pyEndsWith path_lower ("." ++ ext)))
      else false
    else false
  else false

/-- `categorizer.categorize_api_type`: the ordered decision tree.  (The
`isinstance(endpoint_data, dict)` guard is outside the embedded domain:
inputs here are always records.) -/
def categorize_api_type (e : EndpointData) : String :=
  match e.url with
  | none => API_TYPE_UNKNOWN
  | some u =>
    if pyStrip u = "" then API_TYPE_UNKNOWN
    else if check_websocket e then API_TYPE_WEBSOCKET
    else if check_graphql e then API_TYPE_GRAPHQL
    else if check_soap e then API_TYPE_SOAP
    else if check_rest e then API_TYPE_REST
    else API_TYPE_UNKNOWN

theorem dropWhile_append_singleton_ne_nil {α : Type} (p : α → Bool) (a : α)
    (ha : p a = false) : ∀ xs : List α, List.dropWhile p (xs ++ [a]) ≠ [] := by
  intro xs
  induction xs with
  | nil => simp [List.dropWhile_cons, ha]
  | cons x xs ih =>
    by_cases hx : p x = true
    · simpa [List.dropWhile_cons, hx] using ih
    · simp [List.dropWhile_cons, hx]

theorem pyStrip_ne_empty_of_head {u : String} {a : Char} {rest : List Char}
    (hdata : u.data = a :: rest) (ha : isPySpace a = false) : ¬ pyStrip u = "" := by
  intro h
  have h1 : ((u.data.dropWhile isPySpace).reverse.dropWhile isPySpace).reverse = [] := by
    have h0 := congrArg String.data h
    simpa [pyStrip] using h0
  rw [hdata, List.dropWhile_cons, if_neg (by simp [ha])] at h1
  rw [List.reverse_eq_nil_iff, List.reverse_cons] at h1
  exact dropWhile_append_singleton_ne_nil isPySpace a ha rest.reverse h1

theorem pyStrip_empty_all_space {u : String} (h : pyStrip u = "") :
    ∀ c ∈ u.data, isPySpace c = true := by
  intro c hc
  have h1 : ((u.data.dropWhile isPySpace).reverse.dropWhile isPySpace).reverse = [] := by
    have h0 := congrArg String.data h
    simpa [pyStrip] using h0
  rw [List.reverse_eq_nil_iff] at h1
  have h2 : ∀ x ∈ (u.data.dropWhile isPySpace).reverse, isPySpace x = true :=
    List.dropWhile_eq_nil_iff.mp h1
  have hsplit : c ∈ u.data.takeWhile isPySpace ++ u.data.dropWhile isPySpace := by
    rw [List.takeWhile_append_dropWhile]
    exact hc
  rcases List.mem_append.mp hsplit with h3 | h3
  · exact List.mem_takeWhile_imp h3
  · exact h2 c (List.mem_reverse.mpr h3)

theorem listContainsSub_head_mem {c : Char} {cs l : List Char}
    (h : listContainsSub (c :: cs) l = true) : c ∈ l := by
  induction l with
  | nil => simp [listContainsSub] at h
  | cons d rest ih =>
    rw [listContainsSub, Bool.or_eq_true] at h
    rcases h with h | h
    · have hcd : c = d := by
        simp only [List.isPrefixOf, Bool.and_eq_true, beq_iff_eq] at h
        exact h.1
      rw [hcd]
      exact List.mem_cons_self d rest
    · exact List.mem_cons_of_mem d (ih h)

theorem eq_of_lowerChar_eq_of_small {c d : Char} (h : lowerChar c = d)
    (hd : d.toNat < 97) : c = d := by
  unfold lowerChar at h
  split at h
  · next hc =>
    have h2 : (Char.ofNat (c.toNat + 32)).toNat = c.toNat + 32 :=
      toNat_ofNat_of_valid (by omega)
    have h3 := congrArg Char.toNat h
    rw [h2] at h3
    omega
  · exact h

theorem ws_head_nonspace {u : String}
    (h : (pyStartsWith (pyLower u) "ws://" || pyStartsWith (pyLower u) "wss://") = true) :
    ∃ a rest, u.data = a :: rest ∧ isPySpace a = false := by
  have hw : ∃ t, (pyLower u).data = 'w' :: t := by
    rw [Bool.or_eq_true] at h
    rcases h with h1 | h1
    · rw [pyStartsWith] at h1
      obtain ⟨t, ht⟩ := List.isPrefixOf_iff_prefix.mp h1
      exact ⟨"s://".data ++ t, by rw [← ht]; rfl⟩
    · rw [pyStartsWith] at h1
      obtain ⟨t, ht⟩ := List.isPrefixOf_iff_prefix.mp h1
      exact ⟨"ss://".data ++ t, by rw [← ht]; rfl⟩
  obtain ⟨t, ht⟩ := hw
  cases hu : u.data with
  | nil =>
    exfalso
    have ht' : List.map lowerChar u.data = 'w' :: t := ht
    rw [hu] at ht'
    simp at ht'
  | cons a rest =>
    refine ⟨a, rest, rfl, ?_⟩
    have ht' : List.map lowerChar u.data = 'w' :: t := ht
    rw [hu, List.map_cons] at ht'
    have hla : lowerChar a = 'w' := (List.cons.injEq _ _ _ _ ▸ ht').1
    cases hsp : isPySpace a
    · rfl
    · exfalso
      have hfix := lowerChar_of_space hsp
      rw [hfix] at hla
      rw [hla] at hsp
      exact absurd hsp (by decide)

/-- The spec's WebSocket-priority example record. -/
def wsExample : EndpointData :=
  { url := some "ws://x/y", method := "POST",
    response_headers := [("Content-Type", "application/json")] }

/-- The spec's `?wsdl`-priority example record. -/
def wsdlExample : EndpointData :=
  { url := some "http://x/s?wsdl" }

/-- The spec's GraphQL-shaped POST example record. -/
def graphqlPostExample : EndpointData :=
  { url := some "http://x/api", method := "POST",
    response_body := "\x7b\"data\":\x7b\x7d\x7d" }

/-- The same record with method GET. -/
def graphqlGetExample : EndpointData :=
  { url := some "http://x/api", method := "GET",
    response_body := "\x7b\"data\":\x7b\x7d\x7d" }

/-- C6: the classifier's decision tree is evaluated in strict order.  Any
record whose url starts with `ws://` or `wss://` case-insensitively is
WebSocket regardless of its other fields; any non-websocket non-GraphQL
record whose url contains `?wsdl` case-insensitively is SOAP; and the two
concrete examples from the spec evaluate as claimed. -/
theorem categorize_api_type_priority :
    (∀ (e : EndpointData) (u : String), e.url = some u →
      (pyStartsWith (pyLower u) "ws://" || pyStartsWith (pyLower u) "wss://") = true →
      categorize_api_type e = API_TYPE_WEBSOCKET) ∧
    (∀ (e : EndpointData) (u : String), e.url = some u →
      check_websocket e = false → check_graphql e = false →
      pyContains (pyLower u) "?wsdl" = true →
      categorize_api_type e = API_TYPE_SOAP) ∧
    categorize_api_type wsExample = API_TYPE_WEBSOCKET ∧
    categorize_api_type wsdlExample = API_TYPE_SOAP := by
  refine ⟨?_, ?_, by decide, by decide⟩
  · intro e u hu hws
    obtain ⟨a, rest, hdata, hna⟩ := ws_head_nonspace hws
    have hstrip := pyStrip_ne_empty_of_head hdata hna
    have hne : ¬ u = "" := by
      intro h0
      rw [h0] at hdata
      simp at hdata
    have hcw : check_websocket e = true := by
      simp only [check_websocket, hu]
      rw [if_neg hne]
      exact hws
    simp only [categorize_api_type, hu]
    rw [if_neg hstrip, if_pos hcw]
  · intro e u hu hws hgq hwsdl
    have hstrip : ¬ pyStrip u = "" := by
      intro h0
      have hall := pyStrip_empty_all_space h0
      have hpat : "?wsdl".data = '?' :: "wsdl".data := rfl
      rw [pyContains, hpat] at hwsdl
      have hq : '?' ∈ (pyLower u).data := listContainsSub_head_mem hwsdl
      have hq' : '?' ∈ u.data.map lowerChar := hq
      obtain ⟨b, hb, hlb⟩ := List.mem_map.mp hq'
      have hbq : b = '?' := eq_of_lowerChar_eq_of_small hlb (by decide)
      rw [hbq] at hb
      have hsp := hall '?' hb
      exact absurd hsp (by decide)
    have hsoap : check_soap e = true := by
      simp only [check_soap, hu]
      rw [if_pos hwsdl]
    simp only [categorize_api_type, hu]
    rw [if_neg hstrip, if_neg (by simp [hws]), if_neg (by simp [hgq]), if_pos hsoap]

/-- C6 witness: the two priority branches applied at the spec's concrete
records. -/
theorem categorize_api_type_priority_witness :
    categorize_api_type wsExample = API_TYPE_WEBSOCKET ∧
    categorize_api_type wsdlExample = API_TYPE_SOAP :=
  ⟨categorize_api_type_priority.1 wsExample "ws://x/y" rfl (by decide),
   categorize_api_type_priority.2.1 wsdlExample "http://x/s?wsdl" rfl (by decide)
     (by decide) (by decide)⟩

/-- C7: a POST whose response body is a JSON object with a top-level
`data` key classifies as GraphQL; the identical record with method GET
classifies as REST. -/
theorem categorize_api_type_graphql_vs_rest :
    categorize_api_type graphqlPostExample = API_TYPE_GRAPHQL ∧
    categorize_api_type graphqlGetExample = API_TYPE_REST := by
  exact ⟨by decide, by decide⟩

/-! ## scoring.py (weighted multi-factor scorer, modeled over `Rat`) -/

def SOURCE_RELIABILITY_SCORES : List (String × Rat) :=
  [("official_doc", 9/10), ("known_api_db", 8/10), ("partner_api", 75/100),
   ("internal_source", 95/100), ("blog", 5/10), ("forum", 3/10),
   ("code_repository", 6/10), ("web_search", 4/10), ("unknown", 2/10)]

def WEIGHTS : List (String × Rat) :=
  [("completeness", 3/10), ("reliability", 4/10), ("recency", 15/100),
   ("validation", 15/100)]

/-- `scoring.calculate_completeness_score`. -/
def calculate_completeness_score (fields_present total_expected_fields : Int) : Rat :=
  if total_expected_fields ≤ 0 then 0
  else min (max ((fields_present : Rat) / (total_expected_fields : Rat)) 0) 1

/-- `scoring.calculate_reliability_score`. -/
def calculate_reliability_score (source_type : String) : Rat :=
  (SOURCE_RELIABILITY_SCORES.lookup (pyLower source_type)).getD (2/10)

/-- `scoring.calculate_recency_score`.  The datetime arithmetic is abstracted
to its result: `age_in_days` is `(now - discovery_timestamp).days`, and
`none` models a missing timestamp. -/
def calculate_recency_score (age_in_days : Option Int) : Rat :=
  match age_in_days with
  | none => 1/2
  | some d =>
    if d < 0 then 1
    else
      let age_in_years : Rat := (d : Rat) / (36525/100)
      let decay_factor := (1/10) * age_in_years
      min (max (1 - decay_factor) 0) 1

/-- `scoring.calculate_validation_score`. -/
def calculate_validation_score : Option Bool → Rat
  | none => 1/2
  | some true => 1
  | some false => 0

/-- The `result_data['metadata']` fields consumed by `calculate_confidence`,
with the code's `.get` defaults. -/
structure ResultMetadata where
  source_type : String := "unknown"
  fields_present : Int := 0
  total_expected_fields : Int := 0
  age_in_days : Option Int := none
  validated : Option Bool := none

/-- `scoring.calculate_confidence`. -/
def calculate_confidence (md : ResultMetadata) : Rat :=
  let completeness := calculate_completeness_score md.fields_present
    md.total_expected_fields
  let reliability := calculate_reliability_score md.source_type
  let recency := calculate_recency_score md.age_in_days
  let validation := calculate_validation_score md.validated
  let confidence_score :=
    completeness * (WEIGHTS.lookup "completeness").getD 0 +
    reliability * (WEIGHTS.lookup "reliability").getD 0 +
    recency * (WEIGHTS.lookup "recency").getD 0 +
    validation * (WEIGHTS.lookup "validation").getD 0
  min (max confidence_score 0) 1

/-! ## confidence_scorer.py (source-type additive scorer) -/

/-- Python `len()` on the container shapes the scorer measures. -/
def jLen : J → Nat
  | .arr l => l.length
  | .obj o => o.length
  | .s v => v.length
  | _ => 0

/-- `ConfidenceScorer.__init__` state: a falsy/missing spec is stored as
`{}` and missing interactions as `[]`. -/
structure ConfidenceScorer where
  openapi_spec : J := J.obj []
  http_interactions : List J := []

def scorerInit (openapi_spec : Option J) (http_interactions : Option (List J)) :
    ConfidenceScorer :=
  { openapi_spec := match openapi_spec with
      | some sp => if jTruthy sp then sp else J.obj []
      | none => J.obj []
    http_interactions := http_interactions.getD [] }

/-- Python attribute access `x.get(key, default)` inside `score`: raises
`AttributeError` unless `x` is a dict (line 87 etc. of
confidence_scorer.py call `.get` on pattern and spec values that may be
of any type). -/
def jGetE (o : J) (k : String) (d : J) : Except String J :=
  match o with
  | .obj l => Except.ok ((List.lookup k l).getD d)
  | _ => Except.error "AttributeError"

/-- Python `x.values()` (line 93): raises `AttributeError` unless `x` is a
dict. -/
def jValuesE : J → Except String (List J)
  | .obj l => Except.ok (l.map Prod.snd)
  | _ => Except.error "AttributeError"

/-- Python `len(x)` (lines 102, 112, 114, 128): strings, lists and dicts
are sized; `None`, booleans and numbers raise `TypeError`. -/
def jLenE : J → Except String Nat
  | .arr l => Except.ok l.length
  | .obj o => Except.ok o.length
  | .s v => Except.ok v.length
  | _ => Except.error "TypeError"

/-- The `data_source_type == 'openapi'` branch of `ConfidenceScorer.score`
(lines 84-104): the running total before the final clamp, with the
exception Python raises where a `.get`, `.values()` or `len()` hits an
ill-typed value. -/
def openapiScoreSum (cs : ConfidenceScorer) (patterns : J) :
    Except String Int := do
  let s1 : Int := 50
  let v1 ← jGetE patterns "versioning_schemes" J.null
  let s2 := s1 + (if jTruthy v1 then 10 else 0)
  let v2 ← jGetE patterns "naming_conventions" J.null
  let s3 := s2 + (if jTruthy v2 then 5 else 0)
  let v3 ← jGetE patterns "authentication_schemes" J.null
  let s4 := s3 + (if jTruthy v3 then 10 else 0)
  let v4 ← jGetE patterns "data_formats" J.null
  let s5 ←
    if jTruthy v4 then do
      let vals ← jValuesE v4
      pure (s4 + (if vals.any (fun fmt => isJObj fmt && jTruthy fmt)
        then 5 else 0))
    else pure s4
  if jTruthy cs.openapi_spec then do
    let info ← jGetE cs.openapi_spec "info" (J.obj [])
    let title ← jGetE info "title" J.null
    let s6 := s5 + (if jTruthy title then 5 else 0)
    let pathsV ← jGetE cs.openapi_spec "paths" J.null
    let s7 ←
      if jTruthy pathsV then do
        let p ← jGetE cs.openapi_spec "paths" (J.obj [])
        let n ← jLenE p
        pure (s6 + 10 * min (n : Int) 3)
      else pure s6
    let comps ← jGetE cs.openapi_spec "components" (J.obj [])
    let sec ← jGetE comps "securitySchemes" J.null
    pure (s7 + (if jTruthy sec then 5 else 0))
  else pure s5

/-- The `data_source_type == 'website'` branch of `ConfidenceScorer.score`
(lines 107-118): running total before the clamp, with Python's
exceptions. -/
def websiteScoreSum (patterns : J) : Except String Int := do
  let s1 : Int := 30
  let v1 ← jGetE patterns "versioning_schemes" J.null
  let s2 := s1 + (if jTruthy v1 then 20 else 0)
  let cp ← jGetE patterns "common_paths" J.null
  let s3 ←
    if jTruthy cp then do
      let l ← jGetE patterns "common_paths" (J.arr [])
      let n ← jLenE l
      pure (s2 + 15 * (n : Int))
    else pure s2
  let kw ← jGetE patterns "keyword_matches_in_urls" J.null
  if jTruthy kw then do
    let l ← jGetE patterns "keyword_matches_in_urls" (J.arr [])
    let n ← jLenE l
    pure (s3 + 5 * (n : Int))
  else pure s3

/-- The `data_source_type == 'http_interactions'` branch of
`ConfidenceScorer.score` (lines 120-131): running total before the clamp,
with Python's exceptions. -/
def httpScoreSum (cs : ConfidenceScorer) (patterns : J) :
    Except String Int := do
  let s1 : Int := 40
  let v ← jGetE patterns "versioning" (J.obj [])
  let iv ← jGetE v "identified_versions" J.null
  let s2 := s1 + (if jTruthy iv then 15 else 0)
  let a ← jGetE patterns "authentication" (J.obj [])
  let oh ← jGetE a "observed_auth_headers" J.null
  let s3 := s2 + (if jTruthy oh then 15 else 0)
  let hm ← jGetE patterns "http_methods" (J.obj [])
  let om ← jGetE hm "observed_methods" J.null
  let s4 ←
    if jTruthy om then do
      let hm2 ← jGetE patterns "http_methods" (J.obj [])
      let om2 ← jGetE hm2 "observed_methods" (J.arr [])
      let n ← jLenE om2
      pure (s3 + 5 * (n : Int))
    else pure s3
  pure (s4 + (if !cs.http_interactions.isEmpty
    then 2 * (cs.http_interactions.length : Int) else 0))

/-- `ConfidenceScorer.score`.  Fallible: `.error` marks the exception the
Python method raises when a pattern or spec value has the wrong shape
(`.get`/`.values()` on a non-dict → `AttributeError`, `len()` of an
unsized value → `TypeError`); `.ok` carries the returned score. -/
def ConfidenceScorer.score (cs : ConfidenceScorer) (patterns : J)
    (data_source_type : String) : Except String Int :=
  if data_source_type = "openapi" then
    (openapiScoreSum cs patterns).bind fun s => Except.ok (min (max s 0) 100)
  else if data_source_type = "website" then
    (websiteScoreSum patterns).bind fun s => Except.ok (min (max s 0) 100)
  else if data_source_type = "http_interactions" then
    (httpScoreSum cs patterns).bind fun s => Except.ok (min (max s 0) 100)
  else Except.ok 10

theorem int_clamp_bounds (x : Int) :
    0 ≤ min (max x 0) 100 ∧ min (max x 0) 100 ≤ 100 :=
  ⟨le_min (le_max_right x 0) (by norm_num), min_le_right _ _⟩

theorem except_clamp_bounds (x : Except String Int) (n : Int)
    (h : (x.bind fun s => Except.ok (min (max s 0) 100)) = Except.ok n) :
    0 ≤ n ∧ n ≤ 100 := by
  cases x with
  | error e => exact Except.noConfusion h
  | ok s =>
    have h2 : min (max s 0) 100 = n := Except.ok.inj h
    rw [← h2]
    exact int_clamp_bounds s

/-- C8 counterexample: with `data_source_type='openapi'` and patterns
`\x7b"data_formats": [1]\x7d` — a truthy non-dict value — the program
raises `AttributeError` at `patterns["data_formats"].values()`
(confidence_scorer.py line 93) instead of returning a score, so
"for every input ... `ConfidenceScorer.score` returns a value in
`[0, 100]`" fails. -/
theorem confidence_score_not_total :
    (scorerInit none none).score (J.obj [("data_formats", J.arr [J.i 1])])
      "openapi" = Except.error "AttributeError" ∧
    ∀ n : Int, (scorerInit none none).score
      (J.obj [("data_formats", J.arr [J.i 1])]) "openapi" ≠ Except.ok n := by
  exact ⟨rfl, fun n h => Except.noConfusion h⟩

/-- C8 (amended): the weighted scorer always lands in `[0, 1]` and a
non-positive `total_expected_fields` yields completeness `0` rather than
a division error; the additive `ConfidenceScorer.score`, whenever it
returns rather than raising, returns a value in `[0, 100]` — but on
ill-shaped pattern or spec values (e.g. a truthy non-dict
`data_formats`) it raises instead of returning. -/
theorem confidence_score_bounds :
    (∀ md : ResultMetadata,
      0 ≤ calculate_confidence md ∧ calculate_confidence md ≤ 1) ∧
    (∀ (cs : ConfidenceScorer) (patterns : J) (st : String) (n : Int),
      cs.score patterns st = Except.ok n → 0 ≤ n ∧ n ≤ 100) ∧
    (∀ fp te : Int, te ≤ 0 → calculate_completeness_score fp te = 0) := by
  refine ⟨?_, ?_, ?_⟩
  · intro md
    unfold calculate_confidence
    exact ⟨le_min (le_max_right _ 0) (by norm_num), min_le_right _ 1⟩
  · intro cs patterns st n h
    unfold ConfidenceScorer.score at h
    by_cases h1 : st = "openapi"
    · rw [if_pos h1] at h
      exact except_clamp_bounds _ n h
    · rw [if_neg h1] at h
      by_cases h2 : st = "website"
      · rw [if_pos h2] at h
        exact except_clamp_bounds _ n h
      · rw [if_neg h2] at h
        by_cases h3 : st = "http_interactions"
        · rw [if_pos h3] at h
          exact except_clamp_bounds _ n h
        · rw [if_neg h3] at h
          have h10 : (10 : Int) = n := Except.ok.inj h
          omega
  · intro fp te h
    unfold calculate_completeness_score
    rw [if_pos h]

/-- C8 witness: the bounds at a successful concrete call (empty patterns,
source `openapi`, score 50), and the zero-expected-fields branch at a
concrete input. -/
theorem confidence_score_bounds_witness :
    ((0 : Int) ≤ 50 ∧ (50 : Int) ≤ 100) ∧
    calculate_completeness_score 5 0 = 0 :=
  ⟨confidence_score_bounds.2.1 (scorerInit none none) (J.obj []) "openapi"
    50 rfl,
   confidence_score_bounds.2.2 5 0 (by decide)⟩

/-! ## pattern_recognizer.py -/

def isLowerAlpha (c : Char) : Bool := 97 ≤ c.toNat && c.toNat ≤ 122
def isUpperAlpha (c : Char) : Bool := 65 ≤ c.toNat && c.toNat ≤ 90
def isDigitCh (c : Char) : Bool := 48 ≤ c.toNat && c.toNat ≤ 57
def isLowerDigit (c : Char) : Bool := isLowerAlpha c || isDigitCh c
def isAlphaCh (c : Char) : Bool := isLowerAlpha c || isUpperAlpha c
def isAlnumCh (c : Char) : Bool := isAlphaCh c || isDigitCh c

/-- State machine for the camelCase regex `^[a-z]+([A-Z][a-z0-9]*)*$`:
state 0 = start (need a lowercase letter), state 1 = inside the initial
lowercase run, state 2 = inside a `[A-Z][a-z0-9]*` group. -/
def camelSM : Nat → List Char → Bool
  | 0, [] => false
  | 0, c :: rest => if isLowerAlpha c then camelSM 1 rest else false
  | 1, [] => true
  | 1, c :: rest =>
    if isLowerAlpha c then camelSM 1 rest
    else if isUpperAlpha c then camelSM 2 rest
    else false
  | 2, [] => true
  | 2, c :: rest =>
    if isUpperAlpha c then camelSM 2 rest
    else if isLowerDigit c then camelSM 2 rest
    else false
  | _ + 3, _ => false

/-- State machine for the snake_case regex `^[a-z0-9]+(_[a-z0-9]+)*$`:
the flag is true when a `[a-z0-9]` character is required next (at the
start and right after each underscore). -/
def snakeSM : Bool → List Char → Bool
  | false, [] => true
  | true, [] => false
  | needRun, c :: rest =>
    if isLowerDigit c then snakeSM false rest
    else if !needRun && c = '_' then snakeSM true rest
    else false

/-- The PascalCase regex `^[A-Z][a-zA-Z0-9]*$`. -/
def matchesPascal : List Char → Bool
  | [] => false
  | c :: rest => isUpperAlpha c && rest.all isAlnumCh

/-- Python `str.isupper` (ASCII): at least one letter and no lowercase one. -/
def pyIsUpper (l : List Char) : Bool :=
  l.any isAlphaCh && l.all (fun c => !isLowerAlpha c)

/-- Python `str.islower` (ASCII): at least one letter and no uppercase one. -/
def pyIsLower (l : List Char) : Bool :=
  l.any isAlphaCh && l.all (fun c => !isUpperAlpha c)

/-- `APIPatternRecognizer.identify_naming_conventions.get_case`.  The
argument is the raw value read from the evidence; non-strings fall into
the `not isinstance(name, str)` branch. -/
def get_case (name : J) : String :=
  match name with
  | .s v =>
    if v = "" then "unknown"
    else if camelSM 0 v.data then "camelCase"
    else if snakeSM true v.data then "snake_case"
    else if matchesPascal v.data then "PascalCase"
    else if pyIsUpper v.data && listContainsSub "_".data v.data then "UPPER_SNAKE_CASE"
    else if pyIsLower v.data && listContainsSub "-".data v.data then "kebab-case"
    else "mixed/other"
  | _ => "unknown"

/-- Tail of the version-token regexes after `[0-9]+`, requiring a closing
`/`: accepts `([.][0-9]+ | [0-9])*` up to a `/` and returns the consumed
characters.  A `.` must be followed by a digit (the regex backtracks out of
a dangling dot, and no shorter parse can reach the mandatory `/`). -/
def slashDots : List Char → Option (List Char)
  | [] => none
  | c :: rest =>
    if c = '/' then some []
    else if isDigitCh c then (slashDots rest).map (fun m => c :: m)
    else if c = '.' then
      match rest with
      | d :: rest2 =>
        if isDigitCh d then (slashDots rest2).map (fun m => c :: d :: m) else none
      | [] => none
    else none

/-- One alternative of `identify_versioning`'s path regex: matches
`/v([0-9]+(?:[.][0-9]+)*)/` at the head of the list and returns the group. -/
def matchVersionAt : List Char → Option (List Char)
  | a :: b :: c :: rest =>
    if a = '/' && b = 'v' && isDigitCh c then (slashDots rest).map (fun m => c :: m)
    else none
  | _ => none

/-- The other alternative, `/api/v([0-9]+(?:[.][0-9]+)*)/`. -/
def matchApiVersionAt : List Char → Option (List Char)
  | a :: b :: c :: d :: rest =>
    if a = '/' && b = 'a' && c = 'p' && d = 'i' then matchVersionAt rest else none
  | _ => none

/-- `re.search` with the two-alternative version-path pattern: leftmost
position wins and the first alternative is tried first, exactly as the
regex engine scans. -/
def searchVersionPath : List Char → Option (List Char)
  | [] => none
  | c :: rest =>
    match matchVersionAt (c :: rest) with
    | some v => some v
    | none =>
      match matchApiVersionAt (c :: rest) with
      | some v => some v
      | none => searchVersionPath rest

/-- The version group match of a path string, as a string. -/
def version_path_string (s : String) : Option String :=
  (searchVersionPath s.data).map (fun l => ⟨l⟩)

/-- Greedy tail for the anchorless Accept-header regex
`v([0-9]+(?:[.][0-9]+)*)`: consumes digits and dot-digit continuations as
long as possible (a dangling dot is backtracked out of). -/
def vnumInRun : List Char → List Char
  | [] => []
  | c :: rest =>
    if isDigitCh c then c :: vnumInRun rest
    else if c = '.' then
      match rest with
      | d :: rest2 => if isDigitCh d then c :: d :: vnumInRun rest2 else []
      | [] => []
    else []

def matchVNumAt : List Char → Option (List Char)
  | a :: c :: rest =>
    if a = 'v' && isDigitCh c then some (c :: vnumInRun rest) else none
  | _ => none

/-- `re.search(r"v([0-9]+(?:[.][0-9]+)*)", s)`: leftmost match. -/
def searchVNum : List Char → Option (List Char)
  | [] => none
  | c :: rest =>
    match matchVNumAt (c :: rest) with
    | some v => some v
    | none => searchVNum rest

/-! ### Counter and profile helpers -/

/-- `collections.Counter` increment: existing keys keep their position,
new keys are appended (Python dict insertion order). -/
def cIncr (m : List (String × Nat)) (k : String) : List (String × Nat) :=
  match m with
  | [] => [(k, 1)]
  | (k2, n) :: rest => if k2 = k then (k2, n + 1) :: rest else (k2, n) :: cIncr rest k

def cIncrMany (m : List (String × Nat)) (ks : List String) : List (String × Nat) :=
  ks.foldl cIncr m

/-- `dict(counter)` as a `J` object. -/
def counterToJ (m : List (String × Nat)) : J :=
  J.obj (m.map (fun kv => (kv.1, J.i (kv.2 : Int))))

/-- The dict comprehension `{k: v for k, v in d.items() if v}` shared by
every `identify_*` method: entries with falsy values are dropped. -/
def filterTruthyItems (l : List (String × J)) : List (String × J) :=
  l.filter (fun kv => jTruthy kv.2)

/-- Python `str()` on the J values the recognizer stringifies.  Containers
are not faithfully repr'd (no evidence path stringifies one). -/
def pyStr : J → String
  | .s v => v
  | .i n => toString n
  | .b true => "True"
  | .b false => "False"
  | .null => "None"
  | .arr _ => "[...]"
  | .obj _ => "\x7b...\x7d"

/-- String content of a J value with `""` for everything else, for the
places where the code calls str methods right after a `.get(k, "")`. -/
def jStrD : Option J → String
  | some (J.s v) => v
  | _ => ""

def jEqStr (v : J) (t : String) : Bool :=
  match v with
  | .s w => w = t
  | _ => false

/-- Items of a list value (empty for non-lists). -/
def jItems : J → List J
  | .arr l => l
  | _ => []

/-- `APIPatternRecognizer._get_from_spec` with string keys: walk nested
dicts, `none` when a key is missing or an intermediate value is not a
dict. -/
def jWalk : J → List String → Option J
  | cur, [] => some cur
  | .obj o, k :: ks =>
    match List.lookup k o with
    | some v => jWalk v ks
    | none => none
  | _, _ :: _ => none

/-- `APIPatternRecognizer.__init__` state: falsy/missing spec stored as
`{}`, missing interactions as `[]`. -/
structure APIPatternRecognizer where
  openapi_spec : J := J.obj []
  http_interactions : List J := []

def recognizerInit (openapi_spec : Option J) (http_interactions : Option (List J)) :
    APIPatternRecognizer :=
  { openapi_spec := match openapi_spec with
      | some sp => if jTruthy sp then sp else J.obj []
      | none => J.obj []
    http_interactions := http_interactions.getD [] }

/-! ### identify_naming_conventions -/

/-- Python `s.split(sep)` for a one-character separator (structural, so
that concrete runs reduce in the kernel).  `split` never returns an empty
list: the empty string yields `[""]`. -/
def splitOnChar (sep : Char) : List Char → List (List Char)
  | [] => [[]]
  | c :: rest =>
    let r := splitOnChar sep rest
    if c = sep then [] :: r
    else
      match r with
      | h :: t => (c :: h) :: t
      | [] => [[c]]

def pySplitChar (s : String) (sep : Char) : List String :=
  (splitOnChar sep s.data).map (fun l => ⟨l⟩)

/-- Path segments analyzed for naming: split on `/`, dropping empties and
`\x7b...\x7d` template parameters. -/
def pathSegments (p : String) : List String :=
  (pySplitChar p '/').filter (fun s =>
    s ≠ "" && !pyStartsWith s "\x7b" && !pyEndsWith s "\x7d")

/-- The operation objects of the spec, in path and method order (non-dict
method values are skipped, as everywhere in the recognizer). -/
def specOperations (spec : J) : List J :=
  (jEntries ((jWalk spec ["paths"]).getD (J.obj []))).flatMap
    (fun kv => (jValues kv.2).filter isJObj)

def opParams (md : J) : List J :=
  (jItems (jGetD md "parameters" (J.arr []))).filter isJObj

/-- The `name` values of an operation's parameters with the given `in`
location, for parameters whose name and location are both truthy. -/
def paramNamesIn (pin : String) (md : J) : List J :=
  (opParams md).filterMap (fun p =>
    match jGet p "name", jGet p "in" with
    | some nm, some pv =>
      if jTruthy nm && jTruthy pv && jEqStr pv pin then some nm else none
    | _, _ => none)

/-- `schema.$ref` handling: the component name is the last `/`-separated
piece of the reference string. -/
def refSchemaName (media : J) : Option String :=
  match jGet (jGetD media "schema" (J.obj [])) "$ref" with
  | some (J.s ref) =>
    if ref = "" then none else some (((pySplitChar ref '/').getLast?).getD "")
  | _ => none

def propsKeysOf (v : J) : List String :=
  match jGet v "properties" with
  | some (J.obj props) => props.map Prod.fst
  | _ => []

def isDictProps (v : J) : Bool :=
  match jGet v "properties" with
  | some (J.obj _) => true
  | _ => false

/-- Body keys contributed by one media-type object: via a `$ref` into
`components.schemas` when present, else inline schema properties. -/
def bodyKeysFromMedia (spec media : J) : List String :=
  match refSchemaName media with
  | some name =>
    let schema := (jWalk spec ["components", "schemas", name]).getD (J.obj [])
    if jTruthy schema && isDictProps schema then propsKeysOf schema else []
  | none =>
    if isDictProps (jGetD media "schema" (J.obj [])) then
      propsKeysOf (jGetD media "schema" (J.obj []))
    else []

def opRequestBodyKeys (spec : J) (md : J) : List String :=
  (jValues (jGetD (jGetD md "requestBody" (J.obj [])) "content" (J.obj []))).flatMap
    (bodyKeysFromMedia spec)

def opResponseBodyKeys (spec : J) (md : J) : List String :=
  ((jValues (jGetD md "responses" (J.obj []))).filter isJObj).flatMap (fun resp =>
    (jValues (jGetD resp "content" (J.obj []))).flatMap (bodyKeysFromMedia spec))

/-- Component-schema contributions: the schema name's case, then the cases
of its property keys when `properties` is a dict. -/
def componentSchemaCases (spec : J) : List String :=
  (jEntries ((jWalk spec ["components", "schemas"]).getD (J.obj []))).flatMap
    (fun kv => get_case (J.s kv.1) ::
      (if isDictProps kv.2 then (propsKeysOf kv.2).map (fun k => get_case (J.s k))
       else []))

/-- `APIPatternRecognizer.identify_naming_conventions`. -/
def identify_naming_conventions (r : APIPatternRecognizer) : J :=
  let spec := r.openapi_spec
  let ops := specOperations spec
  let path_segments := cIncrMany []
    ((jEntries ((jWalk spec ["paths"]).getD (J.obj []))).flatMap
      (fun kv => (pathSegments kv.1).map (fun seg => get_case (J.s seg))))
  let query_parameters := cIncrMany [] ((ops.flatMap (paramNamesIn "query")).map get_case)
  let header_parameters := cIncrMany [] ((ops.flatMap (paramNamesIn "header")).map get_case)
  let path_parameters := cIncrMany [] ((ops.flatMap (paramNamesIn "path")).map get_case)
  let request_body_keys := cIncrMany []
    ((ops.flatMap (opRequestBodyKeys spec)).map (fun k => get_case (J.s k)))
  let response_body_keys := cIncrMany []
    ((ops.flatMap (opResponseBodyKeys spec)).map (fun k => get_case (J.s k)))
  let component_schema_keys := cIncrMany [] (componentSchemaCases spec)
  J.obj (filterTruthyItems
    [("path_segments", counterToJ path_segments),
     ("query_parameters", counterToJ query_parameters),
     ("header_parameters", counterToJ header_parameters),
     ("path_parameters", counterToJ path_parameters),
     ("request_body_keys", counterToJ request_body_keys),
     ("response_body_keys", counterToJ response_body_keys),
     ("component_schema_keys", counterToJ component_schema_keys)])

/-! ### identify_versioning -/

structure VersioningInfo where
  path_versions : List String := []
  header_versions : List (String × Nat) := []
  query_param_versions : List (String × Nat) := []
  identified_versions : List String := []

/-- `set.add`, preserving insertion order (only the sorted list of the set
is ever emitted). -/
def addIdent (l : List String) (v : String) : List String :=
  if v ∈ l then l else l ++ [v]

def versioningFromPath (vi : VersioningInfo) (p : String) : VersioningInfo :=
  match version_path_string p with
  | some v =>
    { vi with
      path_versions := if v ∈ vi.path_versions then vi.path_versions
                       else vi.path_versions ++ [v]
      identified_versions := addIdent vi.identified_versions v }
  | none => vi

def versioningFromHeader (acc : VersioningInfo) (kv : String × J) : VersioningInfo :=
  let hname := pyLower kv.1
  if hname = "x-api-version" || hname = "api-version" then
    { acc with header_versions := cIncr acc.header_versions (pyStr kv.2)
               identified_versions := addIdent acc.identified_versions (pyStr kv.2) }
  else if hname = "accept" then
    match searchVNum (pyStr kv.2).data with
    | some v =>
      { acc with
        header_versions := cIncr acc.header_versions
          ("accept_header_v" ++ (⟨v⟩ : String))
        identified_versions := addIdent acc.identified_versions (⟨v⟩ : String) }
    | none => acc
  else acc

def versioningFromQueryParam (acc : VersioningInfo) (kv : String × J) : VersioningInfo :=
  let pname := pyLower kv.1
  if pname = "version" || pname = "api_version" || pname = "apiversion" then
    { acc with query_param_versions := cIncr acc.query_param_versions (pyStr kv.2)
               identified_versions := addIdent acc.identified_versions (pyStr kv.2) }
  else acc

def versioningFromInteraction (vi : VersioningInfo) (inter : J) : VersioningInfo :=
  if !isJObj inter then vi
  else
    let request := jGetD inter "request" (J.obj [])
    let url := jStrD (jGet request "url")
    let vi1 := versioningFromPath vi url
    let headers := jGetD request "headers" (J.obj [])
    let vi2 := if isJObj headers then (jEntries headers).foldl versioningFromHeader vi1
               else vi1
    let params := jGetD request "params" (J.obj [])
    if isJObj params then (jEntries params).foldl versioningFromQueryParam vi2 else vi2

/-- Stable insertion sort, the model of Python `sorted` on strings. -/
def insertSorted (x : String) : List String → List String
  | [] => [x]
  | y :: rest => if x ≤ y then x :: y :: rest else y :: insertSorted x rest

def pySorted (l : List String) : List String := l.foldr insertSorted []

/-- `APIPatternRecognizer.identify_versioning`. -/
def identify_versioning (r : APIPatternRecognizer) : J :=
  let vi1 := (jKeys ((jWalk r.openapi_spec ["paths"]).getD (J.obj []))).foldl
    versioningFromPath {}
  let vi2 := r.http_interactions.foldl versioningFromInteraction vi1
  J.obj (filterTruthyItems
    [("path_versions", J.arr (vi2.path_versions.map J.s)),
     ("header_versions", counterToJ vi2.header_versions),
     ("query_param_versions", counterToJ vi2.query_param_versions),
     ("identified_versions", J.arr ((pySorted vi2.identified_versions).map J.s))])

/-! ### identify_authentication -/

structure AuthInfo where
  schemes_from_spec : List J := []
  observed_auth_headers : List (String × Nat) := []
  observed_auth_query_params : List (String × Nat) := []

def schemeDetails (name : String) (scheme : J) : J :=
  let stype := (jGet scheme "type").getD J.null
  let base := [("name", J.s name), ("type", stype)]
  if jEqStr stype "apiKey" then
    J.obj (base ++ [("in", (jGet scheme "in").getD J.null),
                    ("param_name", (jGet scheme "name").getD J.null)])
  else if jEqStr stype "http" then
    J.obj (base ++ [("scheme", (jGet scheme "scheme").getD J.null)])
  else if jEqStr stype "oauth2" then
    J.obj (base ++ [("flows", jGetD scheme "flows" (J.obj []))])
  else J.obj base

/-- `str(value).split(" ")[0] if " " in str(value) else "Unknown"`. -/
def authTypeOf (v : String) : String :=
  if pyContains v " " then ⟨v.data.takeWhile (fun c => c ≠ ' ')⟩ else "Unknown"

def authFromHeader (acc : AuthInfo) (kv : String × J) : AuthInfo :=
  let hname := pyLower kv.1
  if hname = "authorization" then
    let label := "Authorization: " ++ authTypeOf (pyStr kv.2)
    { acc with observed_auth_headers := cIncr acc.observed_auth_headers label }
  else if hname = "x-api-key" || hname = "apikey" || hname = "api-key" ||
      hname = "x-auth-token" then
    { acc with observed_auth_headers := cIncr acc.observed_auth_headers hname }
  else acc

def authFromQueryParam (acc : AuthInfo) (kv : String × J) : AuthInfo :=
  let pname := pyLower kv.1
  if pname = "apikey" || pname = "api_key" || pname = "access_token" ||
      pname = "auth_token" then
    { acc with observed_auth_query_params := cIncr acc.observed_auth_query_params pname }
  else acc

def authFromInteraction (acc : AuthInfo) (inter : J) : AuthInfo :=
  if !isJObj inter then acc
  else
    let request := jGetD inter "request" (J.obj [])
    let headers := jGetD request "headers" (J.obj [])
    let acc1 := if isJObj headers then (jEntries headers).foldl authFromHeader acc
                else acc
    let params := jGetD request "params" (J.obj [])
    if isJObj params then (jEntries params).foldl authFromQueryParam acc1 else acc1

/-- `APIPatternRecognizer.identify_authentication`. -/
def identify_authentication (r : APIPatternRecognizer) : J :=
  let schemes := (jWalk r.openapi_spec ["components", "securitySchemes"]).getD (J.obj [])
  let fromSpec : List J :=
    if jTruthy schemes then
      (jEntries schemes).filterMap (fun kv =>
        if isJObj kv.2 then some (schemeDetails kv.1 kv.2) else none)
    else []
  let a := r.http_interactions.foldl authFromInteraction { schemes_from_spec := fromSpec }
  J.obj (filterTruthyItems
    [("schemes_from_spec", J.arr a.schemes_from_spec),
     ("observed_auth_headers", counterToJ a.observed_auth_headers),
     ("observed_auth_query_params", counterToJ a.observed_auth_query_params)])

/-! ### identify_pagination -/

def common_page_params : List String := ["page", "page_number", "pagenum"]
def common_size_params : List String := ["size", "per_page", "pagesize", "limit", "count"]
def common_offset_params : List String := ["offset", "skip"]
def common_cursor_params : List String :=
  ["cursor", "next_token", "continuation_token", "next_cursor", "page_token"]

/-- The if/elif vocabulary chain shared by both pagination loops. -/
def paginationLabelOf (pname : String) : Option String :=
  if pname ∈ common_page_params then some ("page_based (e.g., " ++ pname ++ ")")
  else if pname ∈ common_size_params then some ("size_based (e.g., " ++ pname ++ ")")
  else if pname ∈ common_offset_params then some ("offset_based (e.g., " ++ pname ++ ")")
  else if pname ∈ common_cursor_params then some ("cursor_based (e.g., " ++ pname ++ ")")
  else none

structure PaginationInfo where
  query_param_patterns : List (String × Nat) := []
  header_patterns : List (String × Nat) := []

/-- Labels from the spec's declared query parameters, in document order. -/
def specPaginationLabels (spec : J) : List String :=
  (specOperations spec).flatMap (fun md =>
    (opParams md).filterMap (fun p =>
      if jEqStr ((jGet p "in").getD J.null) "query" then
        paginationLabelOf (pyLower (jStrD (jGet p "name")))
      else none))

/-- `d.get(k1) or d.get(k2)` (Python `or`: first operand when truthy). -/
def jGetOr (d : J) (k1 k2 : String) : Option J :=
  match jGet d k1 with
  | some v => if jTruthy v then some v else jGet d k2
  | none => jGet d k2

def paginationFromInteraction (acc : PaginationInfo) (inter : J) : PaginationInfo :=
  if !isJObj inter then acc
  else
    let request := jGetD inter "request" (J.obj [])
    let response_headers := jGetD (jGetD inter "response" (J.obj [])) "headers" (J.obj [])
    let params := jGetD request "params" (J.obj [])
    let acc1 := if isJObj params then
        (jEntries params).foldl (fun a kv =>
          match paginationLabelOf (pyLower kv.1) with
          | some label => { a with query_param_patterns := cIncr a.query_param_patterns label }
          | none => a) acc
      else acc
    if isJObj response_headers then
      match jGetOr response_headers "Link" "link" with
      | some link =>
        if jTruthy link then
          let s := pyStr link
          let a2 := if pyContains s "rel=\"next\"" then
              { acc1 with header_patterns := cIncr acc1.header_patterns "Link_header_next" }
            else acc1
          let a3 := if pyContains s "rel=\"prev\"" then
              { a2 with header_patterns := cIncr a2.header_patterns "Link_header_prev" }
            else a2
          let a4 := if pyContains s "rel=\"first\"" then
              { a3 with header_patterns := cIncr a3.header_patterns "Link_header_first" }
            else a3
          if pyContains s "rel=\"last\"" then
            { a4 with header_patterns := cIncr a4.header_patterns "Link_header_last" }
          else a4
        else acc1
      | none => acc1
    else acc1

/-- `APIPatternRecognizer.identify_pagination`. -/
def identify_pagination (r : APIPatternRecognizer) : J :=
  let qp0 := cIncrMany [] (specPaginationLabels r.openapi_spec)
  let p := r.http_interactions.foldl paginationFromInteraction
    { query_param_patterns := qp0 }
  J.obj (filterTruthyItems
    [("query_param_patterns", counterToJ p.query_param_patterns),
     ("header_patterns", counterToJ p.header_patterns)])

/-! ### identify_data_formats -/

structure DataFormats where
  spec_consumes : List (String × Nat) := []
  spec_produces : List (String × Nat) := []
  observed_request_content_types : List (String × Nat) := []
  observed_response_content_types : List (String × Nat) := []
  observed_accept_headers : List (String × Nat) := []

/-- `s.split(";")[0].strip()`: the media type without parameters. -/
def mediaTypeOf (v : String) : String :=
  pyStrip ⟨v.data.takeWhile (fun c => c ≠ ';')⟩

/-- Declared consumes/produces tallies: global lists first, then per
operation its `consumes`/`produces` lists, `requestBody.content` keys into
consumes and response `content` keys into produces. -/
def dataFormatsFromSpec (spec : J) : DataFormats :=
  let globalConsumes := (jItems ((jWalk spec ["consumes"]).getD (J.arr []))).map pyStr
  let globalProduces := (jItems ((jWalk spec ["produces"]).getD (J.arr []))).map pyStr
  let opConsumes := (specOperations spec).flatMap (fun md =>
    ((jItems (jGetD md "consumes" (J.arr []))).map pyStr) ++
    (jKeys (jGetD (jGetD md "requestBody" (J.obj [])) "content" (J.obj []))))
  let opProduces := (specOperations spec).flatMap (fun md =>
    ((jItems (jGetD md "produces" (J.arr []))).map pyStr) ++
    (((jValues (jGetD md "responses" (J.obj []))).filter isJObj).flatMap
      (fun resp => jKeys (jGetD resp "content" (J.obj [])))))
  { spec_consumes := cIncrMany (cIncrMany [] globalConsumes) opConsumes
    spec_produces := cIncrMany (cIncrMany [] globalProduces) opProduces }

def dataFormatsFromInteraction (acc : DataFormats) (inter : J) : DataFormats :=
  if !isJObj inter then acc
  else
    let request_headers := jGetD (jGetD inter "request" (J.obj [])) "headers" (J.obj [])
    let response_headers := jGetD (jGetD inter "response" (J.obj [])) "headers" (J.obj [])
    let acc1 := if isJObj request_headers then
        let a := match jGetOr request_headers "Content-Type" "content-type" with
          | some v =>
            if jTruthy v then
              let mt := mediaTypeOf (pyStr v)
              { acc with observed_request_content_types := cIncr acc.observed_request_content_types mt }
            else acc
          | none => acc
        match jGetOr request_headers "Accept" "accept" with
        | some v =>
          if jTruthy v then
            let parts := (pySplitChar (pyStr v) ',').map mediaTypeOf
            { a with observed_accept_headers := cIncrMany a.observed_accept_headers parts }
          else a
        | none => a
      else acc
    if isJObj response_headers then
      match jGetOr response_headers "Content-Type" "content-type" with
      | some v =>
        if jTruthy v then
          let mt := mediaTypeOf (pyStr v)
          { acc1 with observed_response_content_types := cIncr acc1.observed_response_content_types mt }
        else acc1
      | none => acc1
    else acc1

/-- `APIPatternRecognizer.identify_data_formats`. -/
def identify_data_formats (r : APIPatternRecognizer) : J :=
  let d := r.http_interactions.foldl dataFormatsFromInteraction
    (dataFormatsFromSpec r.openapi_spec)
  J.obj (filterTruthyItems
    [("spec_consumes", counterToJ d.spec_consumes),
     ("spec_produces", counterToJ d.spec_produces),
     ("observed_request_content_types", counterToJ d.observed_request_content_types),
     ("observed_response_content_types", counterToJ d.observed_response_content_types),
     ("observed_accept_headers", counterToJ d.observed_accept_headers)])

/-! ### identify_http_methods and identify_status_codes -/

def HTTP_METHOD_NAMES : List String :=
  ["GET", "POST", "PUT", "DELETE", "PATCH", "OPTIONS", "HEAD", "TRACE"]

/-- `APIPatternRecognizer.identify_http_methods`. -/
def identify_http_methods (r : APIPatternRecognizer) : J :=
  let paths := (jWalk r.openapi_spec ["paths"]).getD (J.obj [])
  let specMethods := cIncrMany []
    (((jValues paths).filter isJObj).flatMap (fun item =>
      (jKeys item).filterMap (fun m =>
        if pyUpper m ∈ HTTP_METHOD_NAMES then some (pyUpper m) else none)))
  let observed := cIncrMany []
    (r.http_interactions.filterMap (fun inter =>
      if isJObj inter then
        let m := pyUpper (jStrD (jGet (jGetD inter "request" (J.obj [])) "method"))
        if m ≠ "" then some m else none
      else none))
  J.obj (filterTruthyItems
    [("spec_methods", counterToJ specMethods),
     ("observed_methods", counterToJ observed)])

/-- `APIPatternRecognizer.identify_status_codes`.  Spec keys are already
strings; observed codes go through `str()` and `None` is skipped. -/
def identify_status_codes (r : APIPatternRecognizer) : J :=
  let specCodes := cIncrMany []
    ((specOperations r.openapi_spec).flatMap (fun op =>
      jKeys (jGetD op "responses" (J.obj []))))
  let observed := cIncrMany []
    (r.http_interactions.filterMap (fun inter =>
      if isJObj inter then
        match jGet (jGetD inter "response" (J.obj [])) "status_code" with
        | some J.null => none
        | some v => some (pyStr v)
        | none => none
      else none))
  J.obj (filterTruthyItems
    [("spec_status_codes", counterToJ specCodes),
     ("observed_status_codes", counterToJ observed)])

/-- `APIPatternRecognizer.identify_all_patterns`: always assembles all
seven category keys. -/
def identify_all_patterns (r : APIPatternRecognizer) : J :=
  J.obj [("naming_conventions", identify_naming_conventions r),
         ("versioning", identify_versioning r),
         ("authentication", identify_authentication r),
         ("pagination", identify_pagination r),
         ("data_formats", identify_data_formats r),
         ("http_methods", identify_http_methods r),
         ("status_codes", identify_status_codes r)]

/-! ### C5 and C10 theorems -/

theorem filterTruthyItems_all (l : List (String × J)) :
    (filterTruthyItems l).all (fun kv => jTruthy kv.2) = true := by
  rw [List.all_eq_true]
  intro kv hkv
  simp only [filterTruthyItems] at hkv
  have h2 := List.of_mem_filter hkv
  simpa using h2

/-- C5 (counterexample): with no evidence at all, `identify_all_patterns`
still emits every category key, each mapping to an empty dict — empty
categories are not omitted from the aggregated profile. -/
theorem identify_all_patterns_emits_empty_categories :
    identify_all_patterns {} =
      J.obj [("naming_conventions", J.obj []), ("versioning", J.obj []),
             ("authentication", J.obj []), ("pagination", J.obj []),
             ("data_formats", J.obj []), ("http_methods", J.obj []),
             ("status_codes", J.obj [])] := rfl

/-- C5 (amended): within each category result the subcategory filter does
hold — every `identify_*` method drops falsy entries, so no emitted value
is an empty map or zero count — but `identify_all_patterns` itself always
assembles all seven category keys, mapping evidence-free categories to
empty dicts rather than omitting them. -/
theorem identify_patterns_category_filtering (r : APIPatternRecognizer) :
    jKeys (identify_all_patterns r) =
      ["naming_conventions", "versioning", "authentication", "pagination",
       "data_formats", "http_methods", "status_codes"] ∧
    (jEntries (identify_naming_conventions r)).all (fun kv => jTruthy kv.2) = true ∧
    (jEntries (identify_versioning r)).all (fun kv => jTruthy kv.2) = true ∧
    (jEntries (identify_authentication r)).all (fun kv => jTruthy kv.2) = true ∧
    (jEntries (identify_pagination r)).all (fun kv => jTruthy kv.2) = true ∧
    (jEntries (identify_data_formats r)).all (fun kv => jTruthy kv.2) = true ∧
    (jEntries (identify_http_methods r)).all (fun kv => jTruthy kv.2) = true ∧
    (jEntries (identify_status_codes r)).all (fun kv => jTruthy kv.2) = true := by
  refine ⟨rfl, ?_, ?_, ?_, ?_, ?_, ?_, ?_⟩ <;> exact filterTruthyItems_all _

theorem slashDots_decomp :
    ∀ n (l m : List Char), l.length ≤ n → slashDots l = some m →
      ∃ post, l = m ++ '/' :: post := by
  intro n
  induction n with
  | zero =>
    intro l m h hm
    cases l with
    | nil => simp [slashDots] at hm
    | cons c rest => simp at h
  | succ n ih =>
    intro l m h hm
    cases l with
    | nil => simp [slashDots] at hm
    | cons c rest =>
      rw [slashDots.eq_def] at hm
      simp only [] at hm
      by_cases h1 : c = '/'
      · rw [if_pos h1] at hm
        simp only [Option.some.injEq] at hm
        exact ⟨rest, by rw [← hm, h1]; rfl⟩
      · rw [if_neg h1] at hm
        by_cases h2 : isDigitCh c = true
        · rw [if_pos h2] at hm
          cases hs : slashDots rest with
          | none => rw [hs] at hm; exact Option.noConfusion hm
          | some m0 =>
            rw [hs, Option.map_some'] at hm
            have hm2 := Option.some.inj hm
            obtain ⟨post, hpost⟩ := ih rest m0 (by simp at h; omega) hs
            exact ⟨post, by rw [← hm2, hpost]; rfl⟩
        · rw [if_neg h2] at hm
          by_cases h3 : c = '.'
          · rw [if_pos h3] at hm
            cases rest with
            | nil => simp only [] at hm; exact Option.noConfusion hm
            | cons d rest2 =>
              simp only [] at hm
              by_cases h4 : isDigitCh d = true
              · rw [if_pos h4] at hm
                cases hs : slashDots rest2 with
                | none => rw [hs] at hm; exact Option.noConfusion hm
                | some m0 =>
                  rw [hs, Option.map_some'] at hm
                  have hm2 := Option.some.inj hm
                  obtain ⟨post, hpost⟩ := ih rest2 m0 (by simp at h; omega) hs
                  exact ⟨post, by rw [← hm2, hpost]; rfl⟩
              · rw [if_neg h4] at hm; exact Option.noConfusion hm
          · rw [if_neg h3] at hm; exact Option.noConfusion hm

theorem slashDots_spec {l m : List Char} (h : slashDots l = some m) :
    ∃ post, l = m ++ '/' :: post :=
  slashDots_decomp l.length l m (Nat.le_refl _) h

theorem matchVersionAt_decomp {l v : List Char} (h : matchVersionAt l = some v) :
    ∃ post, l = '/' :: 'v' :: (v ++ '/' :: post) := by
  cases l with
  | nil => simp [matchVersionAt] at h
  | cons a t1 =>
    cases t1 with
    | nil => simp [matchVersionAt] at h
    | cons b t2 =>
      cases t2 with
      | nil => simp [matchVersionAt] at h
      | cons c rest =>
        simp only [matchVersionAt] at h
        by_cases hcond : (a = '/' && b = 'v' && isDigitCh c) = true
        · rw [if_pos hcond] at h
          cases hs : slashDots rest with
          | none => rw [hs] at h; exact Option.noConfusion h
          | some m0 =>
            rw [hs, Option.map_some'] at h
            have h2 := Option.some.inj h
            obtain ⟨post, hpost⟩ := slashDots_spec hs
            simp only [Bool.and_eq_true, decide_eq_true_eq] at hcond
            obtain ⟨⟨ha, hb⟩, _⟩ := hcond
            subst ha
            subst hb
            exact ⟨post, by rw [← h2, hpost]; rfl⟩
        · rw [if_neg hcond] at h
          exact Option.noConfusion h

theorem matchApiVersionAt_decomp {l v : List Char}
    (h : matchApiVersionAt l = some v) :
    ∃ post, l = '/' :: 'a' :: 'p' :: 'i' :: ('/' :: 'v' :: (v ++ '/' :: post)) := by
  cases l with
  | nil => simp [matchApiVersionAt] at h
  | cons a t1 =>
    cases t1 with
    | nil => simp [matchApiVersionAt] at h
    | cons b t2 =>
      cases t2 with
      | nil => simp [matchApiVersionAt] at h
      | cons c t3 =>
        cases t3 with
        | nil => simp [matchApiVersionAt] at h
        | cons d rest =>
          simp only [matchApiVersionAt] at h
          by_cases hcond : (a = '/' && b = 'a' && c = 'p' && d = 'i') = true
          · rw [if_pos hcond] at h
            obtain ⟨post, hpost⟩ := matchVersionAt_decomp h
            simp only [Bool.and_eq_true, decide_eq_true_eq] at hcond
            obtain ⟨⟨⟨ha, hb⟩, hc⟩, hd⟩ := hcond
            subst ha; subst hb; subst hc; subst hd
            exact ⟨post, by rw [hpost]⟩
          · rw [if_neg hcond] at h
            simp at h

/-- A list occurs as a substring of `pre ++ (mid ++ post)`. -/
theorem listContainsSub_of_decomp (mid : List Char) :
    ∀ (pre post : List Char), listContainsSub mid (pre ++ (mid ++ post)) = true := by
  intro pre
  induction pre with
  | nil =>
    intro post
    rw [List.nil_append]
    cases hmid : mid with
    | nil =>
      cases post with
      | nil => rfl
      | cons c r => simp [listContainsSub]
    | cons m0 mrest =>
      rw [List.cons_append, listContainsSub]
      have hpre : (m0 :: mrest).isPrefixOf (m0 :: (mrest ++ post)) = true :=
        List.isPrefixOf_iff_prefix.mpr ⟨post, by simp⟩
      rw [hpre]
      simp
  | cons c pre ih =>
    intro post
    rw [List.cons_append, listContainsSub, ih post]
    simp

theorem searchVersionPath_decomp :
    ∀ l v, searchVersionPath l = some v →
      listContainsSub ('/' :: 'v' :: (v ++ ['/'])) l = true := by
  intro l
  induction l with
  | nil => intro v h; simp [searchVersionPath] at h
  | cons c rest ih =>
    intro v h
    rw [searchVersionPath] at h
    cases h1 : matchVersionAt (c :: rest) with
    | some v0 =>
      rw [h1] at h
      simp only [Option.some.injEq] at h
      obtain ⟨post, hpost⟩ := matchVersionAt_decomp h1
      subst h
      have := listContainsSub_of_decomp ('/' :: 'v' :: (v0 ++ ['/'])) [] post
      rw [hpost]
      simpa using this
    | none =>
      rw [h1] at h
      cases h2 : matchApiVersionAt (c :: rest) with
      | some v0 =>
        rw [h2] at h
        simp only [Option.some.injEq] at h
        obtain ⟨post, hpost⟩ := matchApiVersionAt_decomp h2
        subst h
        have := listContainsSub_of_decomp ('/' :: 'v' :: (v0 ++ ['/'])) ['/', 'a', 'p', 'i'] post
        rw [hpost]
        simpa using this
      | none =>
        rw [h2] at h
        rw [listContainsSub, ih v h]
        simp

/-- Evidence holding only a spec with the single given path. -/
def specPathsOnly (p : String) : APIPatternRecognizer :=
  { openapi_spec := J.obj [("paths", J.obj [(p, J.obj [])])] }

/-- Evidence holding only one observed interaction with the given url. -/
def interactionUrlOnly (u : String) : APIPatternRecognizer :=
  { http_interactions := [J.obj [("request", J.obj [("url", J.s u)])]] }

/-- C10: the version-path regex only fires when the `v<number>` segment is
followed by a further `/`: any match sits inside a `/v<version>/` substring
of the scanned string, a terminal `/api/v2` path or a request url ending in
`/v3` contributes nothing to the versioning profile, while `/api/v2/items`
yields path version `"2"`. -/
theorem identify_versioning_trailing_slash :
    (∀ l v, searchVersionPath l = some v →
      listContainsSub ('/' :: 'v' :: (v ++ ['/'])) l = true) ∧
    searchVersionPath "/api/v2".data = none ∧
    searchVersionPath "/v3".data = none ∧
    searchVersionPath "/api/v2/items".data = some "2".data ∧
    identify_versioning (specPathsOnly "/api/v2") = J.obj [] ∧
    identify_versioning (interactionUrlOnly "/api/v3") = J.obj [] ∧
    jGet (identify_versioning (specPathsOnly "/api/v2/items")) "path_versions" =
      some (J.arr [J.s "2"]) := by
  refine ⟨searchVersionPath_decomp, rfl, rfl, rfl, rfl, rfl, rfl⟩

/-- C10 witness: the match found in `/api/v2/items` indeed sits inside a
slash-terminated `/v2/` segment. -/
theorem identify_versioning_trailing_slash_witness :
    listContainsSub ('/' :: 'v' :: ("2".data ++ ['/'])) "/api/v2/items".data = true :=
  identify_versioning_trailing_slash.1 "/api/v2/items".data "2".data rfl

/-! ## result_cache.py -/

/-- A stored cache entry as `ResultCache.put` shapes it:
`\x7b'timestamp': <iso string>, 'data': <payload>\x7d`. -/
structure CacheItem where
  timestamp : String
  data : J

/-- `del self._db[key]` (shelve keys are unique). -/
def eraseKey (key : String) (store : List (String × CacheItem)) :
    List (String × CacheItem) :=
  store.filter (fun kv => kv.1 ≠ key)

/-- `ResultCache.get`, over an explicit store.  The two datetime parse
attempts (`fromisoformat`, then `strptime`) and the timezone fixup are
abstracted into `parse`, which yields the timestamp in epoch seconds or
`none` when both attempts raise; `now` is the current epoch second.
On an unparsable timestamp the code prints a warning and returns `None`
without touching the store; only a successfully parsed but stale entry is
deleted. -/
def ResultCache.get (parse : String → Option Int) (now max_age_seconds : Int)
    (store : List (String × CacheItem)) (key : String) :
    Option J × List (String × CacheItem) :=
  match List.lookup key store with
  | none => (none, store)
  | some item =>
    if item.timestamp ≠ "" then
      match parse item.timestamp with
      | none => (none, store)
      | some ts =>
        if now - ts ≤ max_age_seconds then (some item.data, store)
        else (none, eraseKey key store)
    else (none, store)

/-- C3 (counterexample): an entry whose timestamp string parses with
neither format is reported as a miss but is NOT deleted — the store still
holds it afterwards, contradicting the claimed eviction. -/
theorem resultCache_get_unparsable_keeps_entry :
    ResultCache.get (fun _ => none) 0 100
        [("k", { timestamp := "garbage", data := J.s "payload" })] "k" =
      (none, [("k", { timestamp := "garbage", data := J.s "payload" })]) := rfl

/-- C3 (amended): for a stored entry whose timestamp parses, `get` returns
the payload when `now - timestamp ≤ max_age_seconds` and otherwise misses
and deletes the entry; an entry whose timestamp cannot be parsed yields a
miss but stays in the store (only `clear_stale` evicts those). -/
theorem resultCache_get_spec (parse : String → Option Int)
    (now maxAge : Int) (store : List (String × CacheItem)) (key : String)
    (item : CacheItem) (hlook : List.lookup key store = some item)
    (hts : item.timestamp ≠ "") :
    (∀ ts, parse item.timestamp = some ts →
      (now - ts ≤ maxAge →
        ResultCache.get parse now maxAge store key = (some item.data, store)) ∧
      (¬(now - ts ≤ maxAge) →
        ResultCache.get parse now maxAge store key = (none, eraseKey key store))) ∧
    (parse item.timestamp = none →
      ResultCache.get parse now maxAge store key = (none, store)) := by
  constructor
  · intro ts hp
    constructor
    · intro hfresh
      simp only [ResultCache.get, hlook]
      rw [if_pos hts, hp]
      simp [hfresh]
    · intro hstale
      simp only [ResultCache.get, hlook]
      rw [if_pos hts, hp]
      simp [hstale]
  · intro hp
    simp only [ResultCache.get, hlook]
    rw [if_pos hts, hp]

/-- C3 witness: a fresh parseable entry is returned at a concrete input. -/
theorem resultCache_get_spec_witness :
    ResultCache.get (fun _ => some 10) 50 100
        [("k", { timestamp := "2024-01-01T00:00:00+00:00", data := J.s "d" })] "k" =
      (some (J.s "d"),
        [("k", { timestamp := "2024-01-01T00:00:00+00:00", data := J.s "d" })]) :=
  ((resultCache_get_spec (fun _ => some 10) 50 100
      [("k", { timestamp := "2024-01-01T00:00:00+00:00", data := J.s "d" })] "k"
      { timestamp := "2024-01-01T00:00:00+00:00", data := J.s "d" }
      rfl (by decide)).1 10 rfl).1 (by decide)

/-! ## result_processor.py -/

/-- The attributes `class ResultCache` actually defines; Python resolves
`self.cache.<name>` against these and raises `AttributeError` otherwise. -/
def resultCacheMethodNames : List String :=
  ["__init__", "_open_db", "_close_db", "__enter__", "__exit__",
   "_generate_key", "get", "put", "clear_stale", "clear_all", "close",
   "cache_dir", "cache_file_path", "max_age_seconds", "_db"]

/-- `ResultProcessor._summarize_raw_data`. -/
def summarize_raw_data (data : J) : String :=
  match data with
  | .obj o => "Dictionary with " ++ toString o.length ++ " top-level keys."
  | .arr l => "List with " ++ toString l.length ++ " items."
  | .s v => "String with length " ++ toString v.length ++ "."
  | .i _ => "Data of type int."
  | .b _ => "Data of type bool."
  | .null => "Data of type NoneType."

/-- `ConfidenceScorer.get_score_details`. -/
def get_score_details (cs : ConfidenceScorer) : J :=
  let pathsNonzero := (jGet cs.openapi_spec "paths").isSome &&
    0 < jLen (jGetD cs.openapi_spec "paths" (J.obj []))
  let specFactors : List J :=
    if jTruthy cs.openapi_spec then
      [J.s "OpenAPI spec presence"] ++
      (if pathsNonzero then
        [J.s (toString (jLen (jGetD cs.openapi_spec "paths" (J.obj []))) ++
          " paths found in spec")]
       else [])
    else []
  let specWarnings : List J :=
    if jTruthy cs.openapi_spec then
      (if pathsNonzero then [] else [J.s "No paths found in OpenAPI spec."])
    else [J.s "OpenAPI specification not provided or empty."]
  let interFactors : List J :=
    if cs.http_interactions.isEmpty then []
    else [J.s "HTTP interactions presence",
          J.s (toString cs.http_interactions.length ++ " HTTP interactions found")]
  let interWarnings : List J :=
    if cs.http_interactions.isEmpty then
      [J.s "HTTP interactions not provided or empty."]
    else []
  let hasSec := jGetTruthy (jGetD cs.openapi_spec "components" (J.obj []))
    "securitySchemes"
  let secFactors : List J :=
    if hasSec then [J.s "Security schemes defined in spec."] else []
  let secWarnings : List J :=
    if hasSec then [] else [J.s "No security schemes defined in OpenAPI spec."]
  J.obj [("factors_considered", J.arr (specFactors ++ interFactors ++ secFactors)),
         ("warnings", J.arr (specWarnings ++ interWarnings ++ secWarnings))]

/-- The `website_analysis` guard of `process_results`: `data.get("url")`
falsy. -/
def website_url_missing (dm : String) (data : J) : Bool :=
  dm = "website_analysis" && !jGetTruthy data "url"

/-- Report assembly shared by the `process_results` branches:
`api_conventions` falls back to the fixed sentence when no patterns were
recognized, and `raw_data_summary` is recomputed from the possibly
transformed raw data before returning. -/
def mkReport (dm : String) (recognized : J) (score : Int) (details : J)
    (raw_data_to_store : J) : J :=
  let conventions := if jTruthy recognized then recognized
                     else J.s "No patterns recognized or applicable."
  J.obj [("discovery_method", J.s dm),
         ("raw_data_summary", J.s (summarize_raw_data raw_data_to_store)),
         ("analysis_summary",
           J.obj [("confidence_score", J.i score),
                  ("confidence_details", details),
                  ("api_conventions", conventions)])]

/-- Lines 46-156 of `ResultProcessor.process_results`: the report that the
method assembles on a cache miss, before the final `self.cache.set` call.
`websiteAnalyze` stands for the external `WebsiteAnalyzer(url).analyze`
collaborator and `recognizeWebsite` for
`pattern_recognizer.recognize_from_website_data` (both outside this
module's success-path claims; the error path returns before either runs).
An exception raised inside `scorer.score` would abort the call like the
attribute errors `process_results` models; the `Except.error` fallback
below stands for that aborted path and is unreachable at the inputs the
claims evaluate (where `score` receives the dict built by
`identify_all_patterns`, or `\x7b\x7d`, and returns). -/
def processed_output (dm : String) (data : J) (openapi_spec : Option J)
    (http_interactions : Option (List J)) (websiteAnalyze : String → J)
    (recognizeWebsite : List J → List J → J) : J :=
  let current_openapi_spec : Option J :=
    if dm = "openapi_spec" && isJObj data then some data else openapi_spec
  let current_http_interactions : Option (List J) :=
    match data with
    | J.arr l => if dm = "mitmproxy" then some l else http_interactions
    | _ => http_interactions
  let cs : ConfidenceScorer := scorerInit current_openapi_spec current_http_interactions
  let pr : APIPatternRecognizer :=
    recognizerInit current_openapi_spec current_http_interactions
  let specTruthy := match current_openapi_spec with
    | some sp => jTruthy sp
    | none => false
  let intersTruthy := match current_http_interactions with
    | some l => !l.isEmpty
    | none => false
  if dm = "openapi_spec" then
    let recognized := if specTruthy then identify_all_patterns pr else J.obj []
    let score := match cs.score recognized "openapi" with
      | Except.ok n => n
      | Except.error _ => 0
    mkReport dm recognized score (get_score_details cs) data
  else if dm = "mitmproxy" then
    let recognized := if intersTruthy then identify_all_patterns pr else J.obj []
    let score := match cs.score recognized "http_interactions" with
      | Except.ok n => n
      | Except.error _ => 0
    mkReport dm recognized score (get_score_details cs) data
  else if dm = "website_analysis" then
    if !jGetTruthy data "url" then
      J.obj [("error", J.s "URL not provided for website analysis"),
             ("status_code", J.i 400)]
    else
      let url := jStrD (jGet data "url")
      let extracted := websiteAnalyze url
      let patterns := recognizeWebsite (jItems (jGetD extracted "urls" (J.arr [])))
        (jItems (jGetD extracted "text_content" (J.arr [])))
      let score := match cs.score patterns "website" with
        | Except.ok n => n
        | Except.error _ => 0
      let details := J.obj [("source", J.s "website_analysis"),
        ("url_analyzed", jGetD data "url" J.null),
        ("urls_found", J.i ((jLen (jGetD extracted "urls" (J.arr []))) : Int)),
        ("text_snippets_found",
          J.i ((jLen (jGetD extracted "text_content" (J.arr []))) : Int))]
      mkReport dm patterns score details extracted
  else
    let recognized := if specTruthy || intersTruthy then identify_all_patterns pr
                      else J.obj []
    let score := match cs.score recognized dm with
      | Except.ok n => n
      | Except.error _ => 0
    mkReport dm recognized score (get_score_details cs) data

/-- Outcome of a `process_results` call: a returned report (with a flag
recording whether it was written to the cache) or an uncaught exception. -/
inductive PyOutcome where
  | ok (report : J) (cached : Bool)
  | attributeError (msg : String)

/-- `ResultProcessor.process_results`.  Its first statement,
`cache_key = self.cache.generate_key(discovery_method, data)`, resolves
the attribute `generate_key` on the `ResultCache` instance; the class
defines `_generate_key` only, so every call raises `AttributeError`
before any analysis runs.  The `true` branch models what the remaining
lines would do on a cache miss (the final `self.cache.set` resolving the
likewise-missing `set` attribute). -/
def process_results (dm : String) (data : J) (openapi_spec : Option J)
    (http_interactions : Option (List J)) (websiteAnalyze : String → J)
    (recognizeWebsite : List J → List J → J) : PyOutcome :=
  if resultCacheMethodNames.contains "generate_key" then
    let out := processed_output dm data openapi_spec http_interactions
      websiteAnalyze recognizeWebsite
    if website_url_missing dm data then .ok out false
    else if resultCacheMethodNames.contains "set" then .ok out true
    else .attributeError "'ResultCache' object has no attribute 'set'"
  else .attributeError "'ResultCache' object has no attribute 'generate_key'"

/-- Whether a `process_results` call ever writes its report to the cache:
the website-missing-url path returns before `self.cache.set`, and the
`set` attribute is missing from `ResultCache` anyway. -/
def process_results_writes_cache (dm : String) (data : J) : Bool :=
  !website_url_missing dm data && resultCacheMethodNames.contains "set"

/-- The C1 end-to-end input spec
`\x7b"openapi":"3.0.0","paths":\x7b"/test":\x7b"get":\x7b"responses":\x7b"200":\x7b\x7d\x7d\x7d\x7d\x7d\x7d`. -/
def c1Spec : J :=
  J.obj [("openapi", J.s "3.0.0"),
         ("paths", J.obj [("/test",
            J.obj [("get", J.obj [("responses", J.obj [("200", J.obj [])])])])])]

def c2Data : J := J.obj [("some_other_key", J.s "value")]


set_option maxHeartbeats 4000000 in
/-- C1: every `process_results` call raises `AttributeError` at its first
statement — `ResultCache` defines `_generate_key`/`put`, not the
`generate_key`/`set` the processor calls — so the end-to-end scenario
never returns.  The analysis stages the claim describes do produce the
claimed values: on the C1 spec the assembled report carries
`http_methods.spec_methods == \x7b"GET": 1\x7d` and confidence score 65 ≥ 50. -/
theorem process_results_openapi_spec_e2e :
    process_results "openapi_spec" c1Spec none none (fun _ => J.obj [])
        (fun _ _ => J.obj []) =
      PyOutcome.attributeError "'ResultCache' object has no attribute 'generate_key'" ∧
    jWalk (processed_output "openapi_spec" c1Spec none none (fun _ => J.obj [])
        (fun _ _ => J.obj []))
      ["analysis_summary", "api_conventions", "http_methods", "spec_methods"] =
      some (J.obj [("GET", J.i 1)]) ∧
    jWalk (processed_output "openapi_spec" c1Spec none none (fun _ => J.obj [])
        (fun _ _ => J.obj [])) ["analysis_summary", "confidence_score"] =
      some (J.i 65) ∧
    (50 : Int) ≤ 65 := by
  refine ⟨rfl, rfl, rfl, by decide⟩


set_option maxHeartbeats 4000000 in
/-- C2: the same `AttributeError` precedes the missing-url check, so the
call raises instead of returning the error report; the branch itself
(lines 109-115) does build exactly
`\x7b"error": "URL not provided for website analysis", "status_code": 400\x7d`
for every url-less data dict, and that path performs no cache write. -/
theorem process_results_website_missing_url :
    process_results "website_analysis" c2Data none none (fun _ => J.obj [])
        (fun _ _ => J.obj []) =
      PyOutcome.attributeError "'ResultCache' object has no attribute 'generate_key'" ∧
    processed_output "website_analysis" c2Data none none (fun _ => J.obj [])
        (fun _ _ => J.obj []) =
      J.obj [("error", J.s "URL not provided for website analysis"),
             ("status_code", J.i 400)] ∧
    process_results_writes_cache "website_analysis" c2Data = false ∧
    (∀ (data : J) (wf : String → J) (rf : List J → List J → J),
      jGetTruthy data "url" = false →
      processed_output "website_analysis" data none none wf rf =
        J.obj [("error", J.s "URL not provided for website analysis"),
               ("status_code", J.i 400)] ∧
      process_results_writes_cache "website_analysis" data = false) := by
  refine ⟨rfl, rfl, rfl, ?_⟩
  intro data wf rf h
  constructor
  · unfold processed_output
    rw [if_neg (by decide), if_neg (by decide), if_pos (by rfl)]
    rw [h]
    rfl
  · unfold process_results_writes_cache website_url_missing
    rw [h]
    rfl

/-- C2 witness: the general url-less branch applied at the concrete
url-less input. -/
theorem process_results_website_missing_url_witness :
    processed_output "website_analysis" c2Data none none (fun _ => J.obj [])
        (fun _ _ => J.obj []) =
      J.obj [("error", J.s "URL not provided for website analysis"),
             ("status_code", J.i 400)] :=
  (process_results_website_missing_url.2.2.2 c2Data (fun _ => J.obj [])
    (fun _ _ => J.obj []) rfl).1
